import Mathlib

/-!
Verification development for the staged entity store of StagedBlueprintPlanning.

The definitions below are shallow embeddings of the TypeScript source:
* `src/entity/diff.ts` — the property-diff algebra (`getEntityDiff`,
  `applyDiffToEntity`, `applyDiffToDiff`, the `NilPlaceholder` sentinel);
* the `AssemblyEntityImpl` class — staged values (`getValueAtLayer`,
  `applyDiffAtLayer`);
* `AssemblyContentImpl` — the position-bucketed compatibility search and the
  circuit/cable connection graphs;
* `src/project/project-updates.ts` — the update protocol (rotation and
  underground-belt pair handling, stage moves, settings remnants).

Lua tables are modelled as follows: a property snapshot is a function from a
finite key type to optional values (a table field is either present or `nil`);
`LuaMap`s keyed by objects are `Finmap`s keyed by ids (object identity in Lua
corresponds to id equality here); `LuaSet`s are `Finset`s.  Property keys range
over the entity's own properties: per the data model, `position` and
`direction` are separate fields of the staged entity, not snapshot properties,
so the `ignoredProps` filter of `diff.ts` is the identity on this key type.
-/

namespace StagedBP

/-- The `WithNilPlaceholder` value space of `diff.ts`: a diff entry either sets
a property to a value or is the `nilPlaceholder` sentinel marking an explicit
unset, distinct from every representable value. -/
inductive DiffVal (V : Type) where
  | setTo (v : V)
  | unset
  deriving DecidableEq

/-- A property snapshot (an `Entity` value): each key is present with a value
or absent (`nil`). -/
abbrev Snap (K V : Type) := K → Option V

/-- A `LayerDiff`: for each key, optionally a change (set or explicit unset). -/
abbrev LayerDiff (K V : Type) := K → Option (DiffVal V)

variable {K V : Type}

/-- Embeds `applyDiffToEntity` of `diff.ts`: for each key of the diff, delete
the property if the entry is the nil placeholder, otherwise overwrite it. -/
def applyDiffToEntity (e : Snap K V) (d : LayerDiff K V) : Snap K V :=
  fun k =>
    match d k with
    | none => e k
    | some (DiffVal.setTo v) => some v
    | some DiffVal.unset => none

/-- Embeds `applyDiffToDiff` of `diff.ts`: entries of `d` overwrite entries of
`existing`. -/
def applyDiffToDiff (existing d : LayerDiff K V) : LayerDiff K V :=
  fun k =>
    match d k with
    | none => existing k
    | some dv => some dv

/-- The per-key content of `getEntityDiff below above`: a key present in
`above` whose value differs from `below` is recorded; a key present in `below`
but absent from `above` is recorded as the nil placeholder. -/
def entityDiffAt [DecidableEq V] (below above : Snap K V) (k : K) : Option (DiffVal V) :=
  match above k with
  | some v => if below k = some v then none else some (DiffVal.setTo v)
  | none =>
    match below k with
    | some _ => some DiffVal.unset
    | none => none

/-- Embeds `getEntityDiff` of `diff.ts`, including the trailing `nilIfEmpty`:
the result is `none` when no key changed. -/
def getEntityDiff [DecidableEq V] [DecidableEq K] [Fintype K] (below above : Snap K V) :
    Option (LayerDiff K V) :=
  if ∀ k, entityDiffAt below above k = none then none else some (entityDiffAt below above)

/-- Applying an optional diff: `nil` diffs change nothing (callers of
`applyDiffToEntity` skip `nil` diffs). -/
def applyOptDiff (e : Snap K V) : Option (LayerDiff K V) → Snap K V
  | none => e
  | some d => applyDiffToEntity e d

/-! ### Staged values: the `AssemblyEntityImpl` class -/

/-- The staged-value part of `AssemblyEntityImpl`: base layer, base value and
the sparse per-layer diffs.  The Lua table `layerChanges` is iterated in
increasing key order (its loops `break` on the first key above the target), so
it is modelled as a key-sorted association list. -/
structure AssemblyEntity (K V : Type) where
  baseLayer : ℕ
  baseValue : Snap K V
  layerChanges : List (ℕ × LayerDiff K V)

/-- The layer-keys of the stored diffs, in list order. -/
def AssemblyEntity.changeKeys (e : AssemblyEntity K V) : List ℕ :=
  e.layerChanges.map Prod.fst

/-- The loop of `getValueAtLayer`: apply diffs in list order, stopping at the
first entry whose layer exceeds the target (the `break`). -/
def applyChangesUpTo (v : Snap K V) (layer : ℕ) : List (ℕ × LayerDiff K V) → Snap K V
  | [] => v
  | (cl, d) :: rest =>
    if layer < cl then v else applyChangesUpTo (applyDiffToEntity v d) layer rest

/-- Embeds `getValueAtLayer`: `nil` below the base layer, otherwise the base
value with all diffs at layers up to the target applied.  The source asserts
`layer >= 1`; behaviour is only claimed for such layers. -/
def AssemblyEntity.getValueAtLayer (e : AssemblyEntity K V) (layer : ℕ) : Option (Snap K V) :=
  if layer < e.baseLayer then none
  else some (applyChangesUpTo e.baseValue layer e.layerChanges)

/-- Key-sorted insertion used to model `layerChanges[layer] = ...` /
`applyDiffToDiff(existingDiff, diff)` of `applyDiffAtLayer`. -/
def insertLayerDiff (layer : ℕ) (d : LayerDiff K V) :
    List (ℕ × LayerDiff K V) → List (ℕ × LayerDiff K V)
  | [] => [(layer, d)]
  | (cl, existing) :: rest =>
    if cl = layer then (cl, applyDiffToDiff existing d) :: rest
    else if layer < cl then (layer, d) :: (cl, existing) :: rest
    else (cl, existing) :: insertLayerDiff layer d rest

/-- Embeds `applyDiffAtLayer`: at the base layer the diff merges into the base
value, above it the diff merges into (or creates) the stored diff at that
layer.  The source asserts `layer >= baseLayer`. -/
def AssemblyEntity.applyDiffAtLayer (e : AssemblyEntity K V) (layer : ℕ) (d : LayerDiff K V) :
    AssemblyEntity K V :=
  if layer = e.baseLayer then { e with baseValue := applyDiffToEntity e.baseValue d }
  else { e with layerChanges := insertLayerDiff layer d e.layerChanges }

/-- Embeds `createAssemblyEntity` (staged-value part): base layer and a copy of
the base entity, no diffs. -/
def createAssemblyEntity (baseLayer : ℕ) (baseEntity : Snap K V) : AssemblyEntity K V :=
  { baseLayer := baseLayer, baseValue := baseEntity, layerChanges := [] }

/-! ### Properties of the diff algebra -/

theorem entityDiffAt_none_iff [DecidableEq V] (a b : Snap K V) (k : K) :
    entityDiffAt a b k = none ↔ a k = b k := by
  unfold entityDiffAt
  cases hb : b k with
  | some v =>
    by_cases hav : a k = some v
    · simp [hav]
    · simp [hav]
  | none =>
    cases ha : a k <;> simp [ha]

theorem applyDiffToEntity_entityDiffAt [DecidableEq V] (a b : Snap K V) :
    applyDiffToEntity a (entityDiffAt a b) = b := by
  funext k
  unfold applyDiffToEntity entityDiffAt
  cases hb : b k with
  | some v =>
    by_cases hav : a k = some v <;> simp [hav]
  | none =>
    cases ha : a k <;> simp [ha]

/-- C2: for all property snapshots `a`, `b`, applying `getEntityDiff a b` to
`a` yields exactly `b` (including restoring absence of properties that `b`
omits, via the unset sentinel), and `getEntityDiff a b` is `nil` exactly when
no property changed. -/
theorem c2_diff_apply_roundtrip [DecidableEq K] [DecidableEq V] [Fintype K] (a b : Snap K V) :
    applyOptDiff a (getEntityDiff a b) = b ∧ (getEntityDiff a b = none ↔ a = b) := by
  unfold getEntityDiff
  by_cases h : ∀ k, entityDiffAt a b k = none
  · have hab : a = b := funext fun k => (entityDiffAt_none_iff a b k).mp (h k)
    rw [if_pos h]
    exact ⟨hab, by simp [hab]⟩
  · have hne : ¬a = b := fun hab => h fun k => (entityDiffAt_none_iff a b k).mpr (congrFun hab k)
    rw [if_neg h]
    exact ⟨applyDiffToEntity_entityDiffAt a b, by simp [hne]⟩

/-! ### Properties of `getValueAtLayer` -/

theorem applyChangesUpTo_eq_filter (layer : ℕ) :
    ∀ (l : List (ℕ × LayerDiff K V)) (v : Snap K V),
      (l.map Prod.fst).Pairwise (· < ·) →
      applyChangesUpTo v layer l =
        (l.filter fun p => decide (p.1 ≤ layer)).foldl (fun w p => applyDiffToEntity w p.2) v
  | [], _, _ => rfl
  | (cl, d) :: rest, v, hp => by
    rw [List.map_cons, List.pairwise_cons] at hp
    by_cases hcl : layer < cl
    · have hfilter : (rest.filter fun p => decide (p.1 ≤ layer)) = [] := by
        rw [List.filter_eq_nil_iff]
        intro p hpmem
        have hlt : cl < p.1 := hp.1 _ (List.mem_map_of_mem Prod.fst hpmem)
        simp only [decide_eq_true_eq]
        omega
      have hkeep : ¬(cl ≤ layer) := by omega
      simp [applyChangesUpTo, hcl, hfilter, List.filter_cons, hkeep]
    · have hcl' : cl ≤ layer := by omega
      have ih := applyChangesUpTo_eq_filter layer rest (applyDiffToEntity v d) hp.2
      simp only [applyChangesUpTo, if_neg hcl, List.filter_cons, hcl', decide_True,
        List.foldl_cons, if_pos]
      exact ih

/-- The concrete snapshot `{size: n}` of the scenario (a single property). -/
def sizeSnap (n : ℕ) : Snap Unit ℕ := fun _ => some n

/-- The scenario entity: created at stage 3 with value `{size: 1}`, then a
diff `{size: 3}` applied at stage 5. -/
def scenarioEntity : AssemblyEntity Unit ℕ :=
  (createAssemblyEntity 3 (sizeSnap 1)).applyDiffAtLayer 5 (fun _ => some (DiffVal.setTo 3))

/-- C1: for every staged entity with sorted stored diffs and every stage
`s ≥ 1`, `getValueAtLayer s` is `nil` below the first stage, and otherwise
equals the base value with every stored diff whose stage is `≤ s` applied in
increasing stage order; in particular the concrete scenario (created at stage
3 with `{size: 1}`, diff `{size: 3}` at stage 5) yields `nil`, `{size: 1}`,
`{size: 3}`, `{size: 3}` at stages 2, 4, 5, 10. -/
theorem c1_getValueAtLayer_spec (e : AssemblyEntity K V)
    (hs : e.changeKeys.Pairwise (· < ·)) (s : ℕ) (_h1 : 1 ≤ s) :
    (s < e.baseLayer → e.getValueAtLayer s = none) ∧
    (e.baseLayer ≤ s → e.getValueAtLayer s =
      some ((e.layerChanges.filter fun p => decide (p.1 ≤ s)).foldl
        (fun w p => applyDiffToEntity w p.2) e.baseValue)) ∧
    scenarioEntity.getValueAtLayer 2 = none ∧
    scenarioEntity.getValueAtLayer 4 = some (sizeSnap 1) ∧
    scenarioEntity.getValueAtLayer 5 = some (sizeSnap 3) ∧
    scenarioEntity.getValueAtLayer 10 = some (sizeSnap 3) := by
  refine ⟨fun h => ?_, fun h => ?_, by decide, by decide, by decide, by decide⟩
  · simp [AssemblyEntity.getValueAtLayer, h]
  · rw [AssemblyEntity.getValueAtLayer, if_neg (Nat.not_lt.mpr h)]
    exact congrArg some (applyChangesUpTo_eq_filter s e.layerChanges e.baseValue hs)

/-- Witness for C1 at the scenario entity and stage 4. -/
theorem c1_getValueAtLayer_spec_witness :
    scenarioEntity.getValueAtLayer 4 =
      some ((scenarioEntity.layerChanges.filter fun p => decide (p.1 ≤ 4)).foldl
        (fun w p => applyDiffToEntity w p.2) scenarioEntity.baseValue) :=
  (c1_getValueAtLayer_spec scenarioEntity (by decide) 4 (by decide)).2.1 (by decide)

/-! ### The spatial index and compatibility resolver (`AssemblyContentImpl`) -/

/-- Paste-compatible rotation classes of the prototype-info collaborator. -/
inductive PasteRotType where
  | anyDirection
  | flippable
  deriving DecidableEq

/-- The slice of the external prototype-info collaborator used by the
compatibility resolver (`nameToCategory`, `nameToType`,
`getPasteRotatableType`, `rollingStockTypes`). -/
structure ProtoInfo where
  nameToCategory : String → Option String
  nameToType : String → Option String
  pasteRotatableType : String → Option PasteRotType
  rollingStockType : String → Bool

/-- An assembly entity as seen by the position buckets: its first value's
name, stored direction (`nil` when facing north), stage range, position, the
underground-belt type of its first value when it is an underground belt, and
the settings-remnant flag.  Distinct entities in one bucket are distinguished
by these fields (compatible entities in a bucket differ in `firstStage`). -/
structure ContentEntity where
  id : ℕ
  name : String
  direction : Option ℕ
  firstStage : ℕ
  lastStage : Option ℕ
  pos : ℤ × ℤ
  ubType : Option Bool
  isSettingsRemnant : Bool
  deriving DecidableEq

/-- Embeds `getDirection`: the stored direction, north (0) when unset. -/
def ContentEntity.getDirection (e : ContentEntity) : ℕ := e.direction.getD 0

/-- The candidate test of the `findCompatibleByProps` loop: direction matches
when no specific direction is requested or it equals the candidate's
direction; the candidate's last stage is unbounded or at least the stage; the
name matches exactly or both names share an existing category. -/
def matchesProps (pi : ProtoInfo) (entityName : String) (direction : Option ℕ)
    (stage : ℕ) (cur : ContentEntity) : Bool :=
  (decide (direction = none) || decide (direction = some (cur.direction.getD 0))) &&
  (decide (cur.lastStage = none) || decide (stage ≤ cur.lastStage.getD 0)) &&
  (decide (cur.name = entityName) ||
    ((pi.nameToCategory entityName).isSome &&
      decide (pi.nameToCategory cur.name = pi.nameToCategory entityName)))

/-- The candidate-improvement test: no candidate yet, or a strictly smaller
first stage. -/
def candFirstStageLt (cur : ContentEntity) : Option ContentEntity → Bool
  | none => true
  | some c => decide (cur.firstStage < c.firstStage)

/-- The scan of `findCompatibleByProps` over a position bucket's linked list,
carrying the best candidate found so far. -/
def findCompatibleLoop (pi : ProtoInfo) (entityName : String) (direction : Option ℕ)
    (stage : ℕ) : Option ContentEntity → List ContentEntity → Option ContentEntity
  | cand, [] => cand
  | cand, cur :: rest =>
    if matchesProps pi entityName direction stage cur && candFirstStageLt cur cand then
      findCompatibleLoop pi entityName direction stage (some cur) rest
    else
      findCompatibleLoop pi entityName direction stage cand rest

/-- Embeds `findCompatibleByProps`: scan the bucket at the exact position for
the matching candidate with the smallest first stage. -/
def findCompatibleByProps (pi : ProtoInfo) (byPosition : ℤ × ℤ → List ContentEntity)
    (entityName : String) (position : ℤ × ℤ) (direction : Option ℕ) (stage : ℕ) :
    Option ContentEntity :=
  findCompatibleLoop pi entityName direction stage none (byPosition position)

/-- The three candidate conditions of the spec, stated propositionally: the
candidate is alive at the stage, matches by exact name or shared category
class, and matches a specifically requested direction. -/
def CandidateOK (pi : ProtoInfo) (entityName : String) (direction : Option ℕ)
    (stage : ℕ) (cur : ContentEntity) : Prop :=
  (cur.lastStage = none ∨ stage ≤ cur.lastStage.getD 0) ∧
  (cur.name = entityName ∨
    ((pi.nameToCategory entityName).isSome ∧
      pi.nameToCategory cur.name = pi.nameToCategory entityName)) ∧
  ∀ d, direction = some d → d = cur.direction.getD 0

theorem matchesProps_iff (pi : ProtoInfo) (entityName : String) (direction : Option ℕ)
    (stage : ℕ) (cur : ContentEntity) :
    matchesProps pi entityName direction stage cur = true ↔
      CandidateOK pi entityName direction stage cur := by
  unfold matchesProps CandidateOK
  cases direction with
  | none => simp [and_assoc]
  | some d =>
    simp [and_assoc]
    tauto

section FindCompatibleLemmas

variable (pi : ProtoInfo) (entityName : String) (direction : Option ℕ) (stage : ℕ)

theorem findCompatibleLoop_from_some (l : List ContentEntity) :
    ∀ c0 : ContentEntity,
      ∃ c, findCompatibleLoop pi entityName direction stage (some c0) l = some c ∧
        c.firstStage ≤ c0.firstStage ∧
        (c = c0 ∨ (c ∈ l ∧ matchesProps pi entityName direction stage c = true)) := by
  induction l with
  | nil => exact fun c0 => ⟨c0, rfl, le_refl _, Or.inl rfl⟩
  | cons cur rest ih =>
    intro c0
    by_cases h : (matchesProps pi entityName direction stage cur &&
        candFirstStageLt cur (some c0)) = true
    · obtain ⟨c, hc, hle, hor⟩ := ih cur
      have hcur : cur.firstStage ≤ c0.firstStage := by
        have hlt := (Bool.and_eq_true _ _).mp h |>.2
        simp only [candFirstStageLt, decide_eq_true_eq] at hlt
        omega
      refine ⟨c, by simpa [findCompatibleLoop, h] using hc, le_trans hle hcur, ?_⟩
      rcases hor with hco | ⟨hmem, hM⟩
      · exact Or.inr ⟨by rw [hco]; exact List.mem_cons_self _ _,
          by rw [hco]; exact ((Bool.and_eq_true _ _).mp h).1⟩
      · exact Or.inr ⟨List.mem_cons_of_mem _ hmem, hM⟩
    · obtain ⟨c, hc, hle, hor⟩ := ih c0
      refine ⟨c, by simpa [findCompatibleLoop, h] using hc, hle, ?_⟩
      rcases hor with hco | ⟨hmem, hM⟩
      · exact Or.inl hco
      · exact Or.inr ⟨List.mem_cons_of_mem _ hmem, hM⟩

theorem findCompatibleLoop_from_none (l : List ContentEntity) :
    (findCompatibleLoop pi entityName direction stage none l = none ↔
      ∀ x ∈ l, matchesProps pi entityName direction stage x = false) ∧
    ∀ c, findCompatibleLoop pi entityName direction stage none l = some c →
      c ∈ l ∧ matchesProps pi entityName direction stage c = true := by
  induction l with
  | nil => exact ⟨by simp [findCompatibleLoop], fun c hc => by simp [findCompatibleLoop] at hc⟩
  | cons cur rest ih =>
    by_cases hm : matchesProps pi entityName direction stage cur = true
    · have hcond : (matchesProps pi entityName direction stage cur &&
          candFirstStageLt cur none) = true := by
        simp [hm, candFirstStageLt]
      obtain ⟨c, hc, _, hor⟩ := findCompatibleLoop_from_some pi entityName direction stage rest cur
      constructor
      · constructor
        · intro hnone
          rw [show findCompatibleLoop pi entityName direction stage none (cur :: rest) =
              findCompatibleLoop pi entityName direction stage (some cur) rest by
            simp [findCompatibleLoop, hcond], hc] at hnone
          exact absurd hnone (by simp)
        · intro hall
          exact absurd hm (by simp [hall cur (List.mem_cons_self _ _)])
      · intro c' hc'
        rw [show findCompatibleLoop pi entityName direction stage none (cur :: rest) =
            findCompatibleLoop pi entityName direction stage (some cur) rest by
          simp [findCompatibleLoop, hcond], hc] at hc'
        obtain rfl : c = c' := Option.some_injective _ hc'
        rcases hor with hco | ⟨hmem, hM⟩
        · exact ⟨by rw [hco]; exact List.mem_cons_self _ _, by rw [hco]; exact hm⟩
        · exact ⟨List.mem_cons_of_mem _ hmem, hM⟩
    · have hcond : (matchesProps pi entityName direction stage cur &&
          candFirstStageLt cur none) = false := by
        have hmf : matchesProps pi entityName direction stage cur = false :=
          Bool.eq_false_iff.mpr hm
        simp [hmf]
      have hstep : findCompatibleLoop pi entityName direction stage none (cur :: rest) =
          findCompatibleLoop pi entityName direction stage none rest := by
        simp [findCompatibleLoop, hcond]
      constructor
      · rw [hstep, ih.1]
        constructor
        · intro hall
          intro x hx
          rcases List.mem_cons.mp hx with rfl | hx'
          · exact Bool.eq_false_iff.mpr hm
          · exact hall x hx'
        · exact fun hall x hx => hall x (List.mem_cons_of_mem _ hx)
      · intro c hc
        rw [hstep] at hc
        obtain ⟨hmem, hM⟩ := ih.2 c hc
        exact ⟨List.mem_cons_of_mem _ hmem, hM⟩

theorem findCompatibleLoop_min (l : List ContentEntity) :
    ∀ (cand : Option ContentEntity) (c x : ContentEntity), x ∈ l →
      matchesProps pi entityName direction stage x = true →
      findCompatibleLoop pi entityName direction stage cand l = some c →
      c.firstStage ≤ x.firstStage := by
  induction l with
  | nil => intro _ _ x hx; exact absurd hx (List.not_mem_nil x)
  | cons cur rest ih =>
    intro cand c x hx hMx hres
    by_cases h : (matchesProps pi entityName direction stage cur &&
        candFirstStageLt cur cand) = true
    · have hres' : findCompatibleLoop pi entityName direction stage (some cur) rest = some c := by
        simpa [findCompatibleLoop, h] using hres
      rcases List.mem_cons.mp hx with rfl | hx'
      · obtain ⟨c', hc', hle, _⟩ :=
          findCompatibleLoop_from_some pi entityName direction stage rest x
        obtain rfl : c' = c := Option.some_injective _ (hc'.symm.trans hres')
        exact hle
      · exact ih (some cur) c x hx' hMx hres'
    · have hres' : findCompatibleLoop pi entityName direction stage cand rest = some c := by
        simpa [findCompatibleLoop, h] using hres
      rcases List.mem_cons.mp hx with rfl | hx'
      · have hlt : candFirstStageLt x cand = false := by
          cases hcf : candFirstStageLt x cand
          · rfl
          · exact absurd (by simp [hMx, hcf]) h
        cases cand with
        | none => simp [candFirstStageLt] at hlt
        | some c0 =>
          simp only [candFirstStageLt, decide_eq_false_iff_not, Nat.not_lt] at hlt
          obtain ⟨c', hc', hle, _⟩ :=
            findCompatibleLoop_from_some pi entityName direction stage rest c0
          obtain rfl : c' = c := Option.some_injective _ (hc'.symm.trans hres')
          omega
      · exact ih cand c x hx' hMx hres'

end FindCompatibleLemmas

/-- C5: `findCompatibleByProps` returns `nil` exactly when no entity of the
bucket satisfies the three conditions (alive at the stage, name or category
match, direction match when requested), and otherwise returns a bucket entity
satisfying them whose `firstStage` is minimal among all satisfying entities. -/
theorem c5_findCompatibleByProps_spec (pi : ProtoInfo)
    (byPosition : ℤ × ℤ → List ContentEntity) (entityName : String)
    (position : ℤ × ℤ) (direction : Option ℕ) (stage : ℕ) :
    (findCompatibleByProps pi byPosition entityName position direction stage = none ↔
      ∀ x ∈ byPosition position, ¬CandidateOK pi entityName direction stage x) ∧
    ∀ c, findCompatibleByProps pi byPosition entityName position direction stage = some c →
      c ∈ byPosition position ∧ CandidateOK pi entityName direction stage c ∧
      ∀ x ∈ byPosition position, CandidateOK pi entityName direction stage x →
        c.firstStage ≤ x.firstStage := by
  constructor
  · rw [findCompatibleByProps,
      (findCompatibleLoop_from_none pi entityName direction stage (byPosition position)).1]
    constructor
    · intro h x hx
      rw [← matchesProps_iff]
      simp [h x hx]
    · intro h x hx
      have := h x hx
      rw [← matchesProps_iff] at this
      exact Bool.eq_false_iff.mpr this
  · intro c hc
    obtain ⟨hmem, hM⟩ :=
      (findCompatibleLoop_from_none pi entityName direction stage (byPosition position)).2 c hc
    refine ⟨hmem, (matchesProps_iff _ _ _ _ _).mp hM, fun x hx hOK => ?_⟩
    exact findCompatibleLoop_min pi entityName direction stage (byPosition position) none c x hx
      ((matchesProps_iff _ _ _ _ _).mpr hOK) hc

/-- A concrete bucket entity for the C5 witness. -/
def c5Entity1 : ContentEntity :=
  { id := 1, name := ("transport-belt"), direction := none, firstStage := 5,
    lastStage := none, pos := (0, 0), ubType := none, isSettingsRemnant := false }

/-- A compatible entity introduced earlier (smaller first stage). -/
def c5Entity2 : ContentEntity :=
  { c5Entity1 with id := 2, firstStage := 2 }

/-- A trivial prototype-info table for witnesses. -/
def trivialProto : ProtoInfo :=
  { nameToCategory := fun _ => none, nameToType := fun _ => none,
    pasteRotatableType := fun _ => none, rollingStockType := fun _ => false }

/-- A single-bucket position index for witnesses. -/
def c5Bucket : ℤ × ℤ → List ContentEntity := fun _ => [c5Entity1, c5Entity2]

/-- Witness for C5: on a bucket with two matching candidates the search
returns the one with the smaller first stage, and it is minimal. -/
theorem c5_findCompatibleByProps_spec_witness :
    c5Entity2 ∈ c5Bucket (0, 0) ∧
    CandidateOK trivialProto ("transport-belt") none 3 c5Entity2 ∧
    ∀ x ∈ c5Bucket (0, 0), CandidateOK trivialProto ("transport-belt") none 3 x →
      c5Entity2.firstStage ≤ x.firstStage :=
  (c5_findCompatibleByProps_spec trivialProto c5Bucket ("transport-belt") (0, 0) none 3).2
    c5Entity2 (by decide)

/-! ### The connection graphs of `AssemblyContentImpl` -/

/-- A stored circuit connection (`AsmCircuitConnection`): endpoint entity ids,
connector ids, and a wire type. -/
structure CircuitConnection where
  fromEntity : ℕ
  fromId : ℕ
  toEntity : ℕ
  toId : ℕ
  wire : ℕ
  deriving DecidableEq

/-- The mirrored form of a connection (endpoints and connector ids swapped). -/
def mirrorConnection (c : CircuitConnection) : CircuitConnection :=
  { fromEntity := c.toEntity, fromId := c.toId, toEntity := c.fromEntity,
    toId := c.fromId, wire := c.wire }

/-- Modelled from the spec (source `entity/circuit-connection.ts` is not among
the provided sources; the behaviour is fixed by its test file): symmetric
equality of circuit connections — equal as records, or equal up to
mirroring. -/
def circuitConnectionEquals (a b : CircuitConnection) : Bool :=
  decide (a = b) || decide (a = mirrorConnection b)

/-- A cable connection point (`CableConnectionPoint`): a plain entity, or one
of the ports of a power switch (entity id plus connection id). -/
inductive CPoint where
  | ent (e : ℕ)
  | sw (e : ℕ) (connectionId : ℕ)
  deriving DecidableEq

/-- Embeds `getEntityOfConnectionPoint`. -/
def CPoint.entityOf : CPoint → ℕ
  | .ent e => e
  | .sw e _ => e

/-- Embeds `isPowerSwitchConnectionPoint`. -/
def CPoint.isSwitch : CPoint → Bool
  | .ent _ => false
  | .sw _ _ => true

/-- An injective numeric code for connection points; it only serves to give
`CPoint` a linear order so that finite sets of points can be iterated
deterministically (Lua set iteration order is unspecified, and the iterated
operations below are order-independent). -/
def CPoint.code : CPoint → ℕ
  | .ent e => 2 * e
  | .sw e c => 2 * Nat.pair e c + 1

theorem CPoint.code_injective : Function.Injective CPoint.code := by
  intro a b h
  cases a with
  | ent e =>
    cases b with
    | ent f =>
      simp only [code] at h
      exact congrArg CPoint.ent (by omega)
    | sw f c =>
      simp only [code] at h
      omega
  | sw e c =>
    cases b with
    | ent f =>
      simp only [code] at h
      omega
    | sw f d =>
      simp only [code] at h
      have hp : Nat.pair e c = Nat.pair f d := by omega
      obtain ⟨he, hc⟩ := Nat.pair_eq_pair.mp hp
      rw [he, hc]

instance : LinearOrder CPoint := LinearOrder.lift' CPoint.code CPoint.code_injective

/-- The inner circuit index: for each other entity, the set of connections. -/
abbrev CircuitInner := Finmap (fun _ : ℕ => Finset CircuitConnection)

/-- The outer circuit index. -/
abbrev CircuitMap := Finmap (fun _ : ℕ => CircuitInner)

/-- The cable graph: each connection point maps to its set of neighbours. -/
abbrev CableMap := Finmap (fun _ : CPoint => Finset CPoint)

/-- The connection-graph slice of `AssemblyContentImpl`: the entity set, the
circuit double index, the cable graph, and the registered power-switch
connection points (`extraCableConnectionPoints`, modelled as the set of
registered connection ids per entity; the canonical key object interned there
for `(e, id)` corresponds here to the value `CPoint.sw e id`).  The position
index `byPosition` is modelled separately above and does not interact with the
graphs. -/
structure AssemblyContent where
  entities : Finset ℕ
  circuitConnections : CircuitMap
  cableConnections : CableMap
  extraCableConnectionPoints : Finmap (fun _ : ℕ => Finset ℕ)
  deriving DecidableEq

/-- The stored inner map of an entity, empty when the entity has no entry. -/
def circuitInner (cc : CircuitMap) (a : ℕ) : CircuitInner :=
  (cc.lookup a).getD ∅

/-- The stored set of connections recorded from `a` to `b`, empty when
absent. -/
def circuitSet (cc : CircuitMap) (a b : ℕ) : Finset CircuitConnection :=
  ((circuitInner cc a).lookup b).getD ∅

/-- Ensure an outer entry exists (the `if (!fromConnections) ... set(..., new
LuaMap())` steps of `addCircuitConnection`). -/
def padKey (cc : CircuitMap) (k : ℕ) : CircuitMap :=
  if (cc.lookup k).isNone then cc.insert k ∅ else cc

/-- The mutation core of `addCircuitConnection` (after the presence and
duplicate checks): ensure both outer entries exist, then add the connection to
both sides, mirroring the source's table-reference sequencing (the two sets
are captured before the two updates; the second update reads the state left by
the first, which matters when both endpoints are the same entity). -/
def addCircuitBoth (cc : CircuitMap) (f t : ℕ) (c : CircuitConnection) : CircuitMap :=
  let cc2 := padKey (padKey cc f) t
  let fromSet := (circuitInner cc2 f).lookup t
  let toSet := (circuitInner cc2 t).lookup f
  let cc3 := cc2.insert f ((circuitInner cc2 f).insert t (insert c (fromSet.getD ∅)))
  cc3.insert t ((circuitInner cc3 t).insert f (insert c (toSet.getD ∅)))

/-- Embeds `addCircuitConnection`: rejects when an endpoint entity is absent
or a symmetric-equal duplicate is recorded; otherwise records the connection
on both sides of the double index.  Returns whether it was added. -/
def addCircuitConnection (st : AssemblyContent) (c : CircuitConnection) :
    Bool × AssemblyContent :=
  if ¬(c.fromEntity ∈ st.entities ∧ c.toEntity ∈ st.entities) then (false, st)
  else if ∃ x ∈ circuitSet st.circuitConnections c.fromEntity c.toEntity,
      circuitConnectionEquals c x = true then (false, st)
  else
    (true, { st with
      circuitConnections := addCircuitBoth st.circuitConnections c.fromEntity c.toEntity c })

/-- One side of `removeCircuitConnection`: erase `c` from the set stored under
`outer → inner`, deleting the set when emptied and the outer entry when it
empties too. -/
def removeCircuitSide (cc : CircuitMap) (outer inner : ℕ) (c : CircuitConnection) :
    CircuitMap :=
  match cc.lookup outer with
  | none => cc
  | some m =>
    match m.lookup inner with
    | none => cc
    | some s =>
      let s' := s.erase c
      if s' = ∅ then
        let m' := m.erase inner
        if m' = ∅ then cc.erase outer else cc.insert outer m'
      else cc.insert outer (m.insert inner s')

/-- Both sides of the removal: the from-side first, then the to-side against
the state the from-side left (the source mutates the shared tables in this
order). -/
def removeCircuitBoth (cc : CircuitMap) (f t : ℕ) (c : CircuitConnection) : CircuitMap :=
  removeCircuitSide (removeCircuitSide cc f t c) t f c

/-- Embeds `removeCircuitConnection`: when both outer entries exist, erase the
connection from both sides, cleaning up emptied sets and maps. -/
def removeCircuitConnection (st : AssemblyContent) (c : CircuitConnection) :
    AssemblyContent :=
  if (st.circuitConnections.lookup c.fromEntity).isNone ∨
      (st.circuitConnections.lookup c.toEntity).isNone then st
  else
    { st with circuitConnections := removeCircuitBoth st.circuitConnections c.fromEntity c.toEntity c }

/-! ### Generic `Finmap` helpers -/

theorem finmap_insert_self {α β : Type} [DecidableEq α]
    (m : Finmap (fun _ : α => β)) (k : α) (v : β) (h : m.lookup k = some v) :
    m.insert k v = m := by
  apply Finmap.ext_lookup
  intro x
  by_cases hx : x = k
  · subst hx
    rw [Finmap.lookup_insert, h]
  · rw [Finmap.lookup_insert_of_ne _ hx]

theorem finmap_erase_absent {α β : Type} [DecidableEq α]
    (m : Finmap (fun _ : α => β)) (k : α) (h : m.lookup k = none) :
    m.erase k = m := by
  apply Finmap.ext_lookup
  intro x
  by_cases hx : x = k
  · subst hx
    rw [Finmap.lookup_erase, h]
  · rw [Finmap.lookup_erase_ne hx]

theorem finmap_erase_insert {α β : Type} [DecidableEq α]
    (m : Finmap (fun _ : α => β)) (k : α) (v : β) :
    (m.insert k v).erase k = m.erase k := by
  apply Finmap.ext_lookup
  intro x
  by_cases hx : x = k
  · subst hx
    rw [Finmap.lookup_erase, Finmap.lookup_erase]
  · rw [Finmap.lookup_erase_ne hx, Finmap.lookup_erase_ne hx,
      Finmap.lookup_insert_of_ne _ hx]

theorem finmap_eq_empty_iff {α β : Type} [DecidableEq α]
    (m : Finmap (fun _ : α => β)) :
    m = ∅ ↔ ∀ x, m.lookup x = none := by
  constructor
  · rintro rfl x
    exact Finmap.lookup_empty x
  · intro h
    apply Finmap.ext_lookup
    intro x
    rw [h x, Finmap.lookup_empty]

theorem finmap_getD_of_ne_empty {α β : Type} [DecidableEq α]
    (m : Finmap (fun _ : α => Finset β)) (k : α)
    (h : ((m.lookup k).getD ∅).Nonempty) : m.lookup k = some ((m.lookup k).getD ∅) := by
  cases hk : m.lookup k with
  | none =>
    rw [hk] at h
    exact absurd h (by simp)
  | some v =>
    rfl

/-! ### Lookup characterization of `addCircuitBoth` -/

theorem padKey_inner (cc : CircuitMap) (k x : ℕ) :
    circuitInner (padKey cc k) x = circuitInner cc x := by
  unfold padKey circuitInner
  by_cases hk : (cc.lookup k).isNone
  · rw [if_pos hk]
    by_cases hx : x = k
    · subst hx
      rw [Finmap.lookup_insert, Option.isNone_iff_eq_none.mp hk]
      rfl
    · rw [Finmap.lookup_insert_of_ne _ hx]
  · rw [if_neg hk]

theorem padKey_lookup_ne {x k : ℕ} (hx : x ≠ k) (cc : CircuitMap) :
    (padKey cc k).lookup x = cc.lookup x := by
  unfold padKey
  by_cases hk : (cc.lookup k).isNone
  · rw [if_pos hk, Finmap.lookup_insert_of_ne _ hx]
  · rw [if_neg hk]

theorem circuitInner_insert_ne {x k : ℕ} (hx : x ≠ k) (cc : CircuitMap) (v : CircuitInner) :
    circuitInner (cc.insert k v) x = circuitInner cc x := by
  unfold circuitInner
  rw [Finmap.lookup_insert_of_ne _ hx]

theorem circuitInner_insert_self (cc : CircuitMap) (k : ℕ) (v : CircuitInner) :
    circuitInner (cc.insert k v) k = v := by
  unfold circuitInner
  rw [Finmap.lookup_insert]
  rfl

theorem addCircuitBoth_eq_of_ne (cc : CircuitMap) (f t : ℕ) (c : CircuitConnection)
    (hft : f ≠ t) :
    addCircuitBoth cc f t c =
      ((padKey (padKey cc f) t).insert f
          ((circuitInner cc f).insert t (insert c (circuitSet cc f t)))).insert t
        ((circuitInner cc t).insert f (insert c (circuitSet cc t f))) := by
  unfold addCircuitBoth
  have h2 : ∀ x, circuitInner (padKey (padKey cc f) t) x = circuitInner cc x := fun x => by
    rw [padKey_inner, padKey_inner]
  simp only [h2, circuitInner_insert_ne (Ne.symm hft), circuitSet]

theorem addCircuitBoth_eq_self (cc : CircuitMap) (f : ℕ) (c : CircuitConnection) :
    addCircuitBoth cc f f c =
      (padKey (padKey cc f) f).insert f
        ((circuitInner cc f).insert f (insert c (circuitSet cc f f))) := by
  unfold addCircuitBoth
  have h2 : ∀ x, circuitInner (padKey (padKey cc f) f) x = circuitInner cc x := fun x => by
    rw [padKey_inner, padKey_inner]
  simp only [h2, circuitInner_insert_self, circuitSet, Finmap.insert_insert]

/-! ### Lookup characterization of `removeCircuitSide` -/

theorem removeCircuitSide_form (cc0 A : CircuitMap) (o i : ℕ) (c : CircuitConnection)
    (hA : A.lookup o = some ((circuitInner cc0 o).insert i (insert c (circuitSet cc0 o i))))
    (hc : c ∉ circuitSet cc0 o i)
    (hSets : ∀ s, (circuitInner cc0 o).lookup i = some s → s ≠ ∅) :
    removeCircuitSide A o i c =
      if circuitInner cc0 o = ∅ then A.erase o else A.insert o (circuitInner cc0 o) := by
  unfold removeCircuitSide
  simp only [hA, Finmap.lookup_insert, Finset.erase_insert hc]
  by_cases hS : circuitSet cc0 o i = ∅
  · rw [if_pos hS, finmap_erase_insert]
    have hMi : (circuitInner cc0 o).lookup i = none := by
      cases hmi : (circuitInner cc0 o).lookup i with
      | none => rfl
      | some s =>
        have hs : s = circuitSet cc0 o i := by
          unfold circuitSet
          rw [hmi]
          rfl
        exact absurd (hs.trans hS) (hSets s hmi)
    rw [finmap_erase_absent _ _ hMi]
  · rw [if_neg hS, Finmap.insert_insert]
    have hMi : (circuitInner cc0 o).lookup i = some (circuitSet cc0 o i) :=
      finmap_getD_of_ne_empty _ _ (Finset.nonempty_iff_ne_empty.mpr hS)
    rw [finmap_insert_self _ i _ hMi]
    have hM : circuitInner cc0 o ≠ ∅ := by
      intro h0
      rw [h0] at hMi
      simp [Finmap.lookup_empty] at hMi
    rw [if_neg hM]

theorem removeCircuitSide_restores (cc0 A : CircuitMap) (o i : ℕ) (c : CircuitConnection)
    (hA : A.lookup o = some ((circuitInner cc0 o).insert i (insert c (circuitSet cc0 o i))))
    (hc : c ∉ circuitSet cc0 o i)
    (hSets : ∀ s, (circuitInner cc0 o).lookup i = some s → s ≠ ∅)
    (hMaps : cc0.lookup o ≠ some ∅) :
    (removeCircuitSide A o i c).lookup o = cc0.lookup o ∧
    ∀ x, x ≠ o → (removeCircuitSide A o i c).lookup x = A.lookup x := by
  rw [removeCircuitSide_form cc0 A o i c hA hc hSets]
  by_cases hM : circuitInner cc0 o = ∅
  · rw [if_pos hM]
    constructor
    · rw [Finmap.lookup_erase]
      cases hcc : cc0.lookup o with
      | none => rfl
      | some m =>
        have hm : m = circuitInner cc0 o := by
          unfold circuitInner
          rw [hcc]
          rfl
        exact absurd (by rw [hm, hM] at hcc; exact hcc) hMaps
    · intro x hx
      rw [Finmap.lookup_erase_ne hx]
  · rw [if_neg hM]
    constructor
    · rw [Finmap.lookup_insert]
      cases hcc : cc0.lookup o with
      | none =>
        exact absurd (by unfold circuitInner; rw [hcc]; rfl) hM
      | some m =>
        have hm : m = circuitInner cc0 o := by
          unfold circuitInner
          rw [hcc]
          rfl
        rw [hm]
    · intro x hx
      rw [Finmap.lookup_insert_of_ne _ hx]

theorem removeCircuitSide_noop (cc0 B : CircuitMap) (o i : ℕ) (c : CircuitConnection)
    (hB : B.lookup o = cc0.lookup o)
    (hc : c ∉ circuitSet cc0 o i)
    (hSets : ∀ s, (circuitInner cc0 o).lookup i = some s → s ≠ ∅) :
    removeCircuitSide B o i c = B := by
  unfold removeCircuitSide
  rw [hB]
  cases hcc : cc0.lookup o with
  | none => rfl
  | some m =>
    have hm : m = circuitInner cc0 o := by
      unfold circuitInner
      rw [hcc]
      rfl
    cases hmi : m.lookup i with
    | none => simp only [hmi]
    | some s =>
      have hs : s = circuitSet cc0 o i := by
        unfold circuitSet
        rw [← hm, hmi]
        rfl
      have hce : s.erase c = s := Finset.erase_eq_of_not_mem (by rw [hs]; exact hc)
      have hne : s ≠ ∅ := hSets s (by rw [← hm]; exact hmi)
      simp only [hmi, hce]
      rw [if_neg hne, finmap_insert_self m i s hmi, finmap_insert_self B o m (by rw [hB, hcc])]

/-- Well-formedness of the circuit double index, as checked by
`_assertCorrect`: the two sides record the same connection sets, and no stored
inner map or stored set is empty (emptied entries are deleted eagerly). -/
def CircuitWF (cc : CircuitMap) : Prop :=
  (∀ a b, circuitSet cc a b = circuitSet cc b a) ∧
  (∀ a, cc.lookup a ≠ some ∅) ∧
  ∀ a m b s, cc.lookup a = some m → m.lookup b = some s → s ≠ ∅

theorem circuitWF_sets {cc : CircuitMap} (hWF : CircuitWF cc) (o i : ℕ) :
    ∀ s, (circuitInner cc o).lookup i = some s → s ≠ ∅ := by
  intro s hs
  cases hcc : cc.lookup o with
  | none =>
    rw [show circuitInner cc o = ∅ from by unfold circuitInner; rw [hcc]; rfl,
      Finmap.lookup_empty] at hs
    cases hs
  | some m =>
    have hm : circuitInner cc o = m := by
      unfold circuitInner
      rw [hcc]
      rfl
    exact hWF.2.2 o m i s hcc (hm ▸ hs)

theorem removeCircuitConnection_eq (st : AssemblyContent) (c : CircuitConnection)
    (h : ¬((st.circuitConnections.lookup c.fromEntity).isNone ∨
      (st.circuitConnections.lookup c.toEntity).isNone)) :
    removeCircuitConnection st c =
      { st with circuitConnections := removeCircuitBoth st.circuitConnections c.fromEntity c.toEntity c } := by
  unfold removeCircuitConnection
  rw [if_neg h]

theorem addCircuitConnection_dup (st : AssemblyContent) (c : CircuitConnection)
    (hpres : c.fromEntity ∈ st.entities ∧ c.toEntity ∈ st.entities)
    (hdup : ∃ x ∈ circuitSet st.circuitConnections c.fromEntity c.toEntity,
      circuitConnectionEquals c x = true) :
    addCircuitConnection st c = (false, st) := by
  unfold addCircuitConnection
  rw [if_neg (not_not_intro hpres), if_pos hdup]

/-- C8 (amended): on a well-formed store, if `addCircuitConnection c` reports
success (so `c` was not already recorded), then removing `c` restores the
circuit double index — and the whole content — to exactly its prior state,
including removal of emptied maps; and re-adding the mirrored form of `c` is
detected as a duplicate: it returns `false` and changes nothing. -/
theorem c8_circuit_roundtrip (st st' : AssemblyContent) (c : CircuitConnection)
    (hWF : CircuitWF st.circuitConnections)
    (hadd : addCircuitConnection st c = (true, st')) :
    removeCircuitConnection st' c = st ∧
    addCircuitConnection st' (mirrorConnection c) = (false, st') := by
  unfold addCircuitConnection at hadd
  by_cases h1 : c.fromEntity ∈ st.entities ∧ c.toEntity ∈ st.entities
  case neg =>
    rw [if_pos h1] at hadd
    exact absurd (congrArg Prod.fst hadd) (by simp)
  rw [if_neg (not_not_intro h1)] at hadd
  by_cases h2 : ∃ x ∈ circuitSet st.circuitConnections c.fromEntity c.toEntity,
      circuitConnectionEquals c x = true
  case pos =>
    rw [if_pos h2] at hadd
    exact absurd (congrArg Prod.fst hadd) (by simp)
  rw [if_neg h2] at hadd
  have hst' : st' = { st with circuitConnections := addCircuitBoth st.circuitConnections c.fromEntity c.toEntity c } :=
    (congrArg Prod.snd hadd).symm
  have hstc : st'.circuitConnections =
      addCircuitBoth st.circuitConnections c.fromEntity c.toEntity c := by
    rw [hst']
  have hste : st'.entities = st.entities := by
    rw [hst']
  have hcf : c ∉ circuitSet st.circuitConnections c.fromEntity c.toEntity := by
    intro hmem
    exact h2 ⟨c, hmem, by simp [circuitConnectionEquals]⟩
  have hct : c ∉ circuitSet st.circuitConnections c.toEntity c.fromEntity := by
    rw [hWF.1 c.toEntity c.fromEntity]
    exact hcf
  rcases eq_or_ne c.fromEntity c.toEntity with hft | hft
  · -- a connection between an entity and itself: both sides use the same entry
    have hAeq := addCircuitBoth_eq_self st.circuitConnections c.fromEntity c
    rw [← hft] at hstc
    rw [hAeq] at hstc
    have hAf : st'.circuitConnections.lookup c.fromEntity =
        some ((circuitInner st.circuitConnections c.fromEntity).insert c.fromEntity
          (insert c (circuitSet st.circuitConnections c.fromEntity c.fromEntity))) := by
      rw [hstc, Finmap.lookup_insert]
    have hAx : ∀ x, x ≠ c.fromEntity →
        st'.circuitConnections.lookup x = st.circuitConnections.lookup x := by
      intro x hx
      rw [hstc, Finmap.lookup_insert_of_ne _ hx, padKey_lookup_ne hx, padKey_lookup_ne hx]
    have hcf' : c ∉ circuitSet st.circuitConnections c.fromEntity c.fromEntity := by
      rw [hft] at hcf ⊢
      exact hcf
    have hguard : ¬((st'.circuitConnections.lookup c.fromEntity).isNone ∨
        (st'.circuitConnections.lookup c.toEntity).isNone) := by
      rw [← hft, hAf]
      simp
    obtain ⟨hBf, hBx⟩ := removeCircuitSide_restores st.circuitConnections
      st'.circuitConnections c.fromEntity c.fromEntity c hAf hcf'
      (circuitWF_sets hWF c.fromEntity c.fromEntity) (hWF.2.1 c.fromEntity)
    have hnoop := removeCircuitSide_noop st.circuitConnections
      (removeCircuitSide st'.circuitConnections c.fromEntity c.fromEntity c)
      c.fromEntity c.fromEntity c hBf hcf' (circuitWF_sets hWF c.fromEntity c.fromEntity)
    constructor
    · rw [removeCircuitConnection_eq st' c hguard]
      have hCC : removeCircuitBoth st'.circuitConnections c.fromEntity c.toEntity c =
          st.circuitConnections := by
        unfold removeCircuitBoth
        rw [← hft, hnoop]
        apply Finmap.ext_lookup
        intro x
        by_cases hx : x = c.fromEntity
        · rw [hx, hBf]
        · rw [hBx x hx, hAx x hx]
      rw [hCC, hst']
    · apply addCircuitConnection_dup
      · rw [hste]
        exact ⟨h1.2, h1.1⟩
      · refine ⟨c, ?_, by simp [circuitConnectionEquals]⟩
        show c ∈ circuitSet st'.circuitConnections c.toEntity c.fromEntity
        have hinner : circuitInner st'.circuitConnections c.toEntity =
            (circuitInner st.circuitConnections c.fromEntity).insert c.fromEntity
              (insert c (circuitSet st.circuitConnections c.fromEntity c.fromEntity)) := by
          unfold circuitInner
          rw [← hft, hAf]
          rfl
        unfold circuitSet
        rw [hinner, Finmap.lookup_insert]
        exact Finset.mem_insert_self c _
  · -- distinct endpoints
    have hAeq := addCircuitBoth_eq_of_ne st.circuitConnections c.fromEntity c.toEntity c hft
    rw [hAeq] at hstc
    have hAf : st'.circuitConnections.lookup c.fromEntity =
        some ((circuitInner st.circuitConnections c.fromEntity).insert c.toEntity
          (insert c (circuitSet st.circuitConnections c.fromEntity c.toEntity))) := by
      rw [hstc, Finmap.lookup_insert_of_ne _ hft, Finmap.lookup_insert]
    have hAt : st'.circuitConnections.lookup c.toEntity =
        some ((circuitInner st.circuitConnections c.toEntity).insert c.fromEntity
          (insert c (circuitSet st.circuitConnections c.toEntity c.fromEntity))) := by
      rw [hstc, Finmap.lookup_insert]
    have hAx : ∀ x, x ≠ c.fromEntity → x ≠ c.toEntity →
        st'.circuitConnections.lookup x = st.circuitConnections.lookup x := by
      intro x hxf hxt
      rw [hstc, Finmap.lookup_insert_of_ne _ hxt, Finmap.lookup_insert_of_ne _ hxf,
        padKey_lookup_ne hxt, padKey_lookup_ne hxf]
    have hguard : ¬((st'.circuitConnections.lookup c.fromEntity).isNone ∨
        (st'.circuitConnections.lookup c.toEntity).isNone) := by
      rw [hAf, hAt]
      simp
    obtain ⟨hBf, hBx⟩ := removeCircuitSide_restores st.circuitConnections
      st'.circuitConnections c.fromEntity c.toEntity c hAf hcf
      (circuitWF_sets hWF c.fromEntity c.toEntity) (hWF.2.1 c.fromEntity)
    have hBt : (removeCircuitSide st'.circuitConnections c.fromEntity c.toEntity c).lookup
        c.toEntity =
        some ((circuitInner st.circuitConnections c.toEntity).insert c.fromEntity
          (insert c (circuitSet st.circuitConnections c.toEntity c.fromEntity))) := by
      rw [hBx c.toEntity (Ne.symm hft), hAt]
    obtain ⟨hCt, hCx⟩ := removeCircuitSide_restores st.circuitConnections
      (removeCircuitSide st'.circuitConnections c.fromEntity c.toEntity c)
      c.toEntity c.fromEntity c hBt hct
      (circuitWF_sets hWF c.toEntity c.fromEntity) (hWF.2.1 c.toEntity)
    constructor
    · rw [removeCircuitConnection_eq st' c hguard]
      have hCC : removeCircuitBoth st'.circuitConnections c.fromEntity c.toEntity c =
          st.circuitConnections := by
        unfold removeCircuitBoth
        apply Finmap.ext_lookup
        intro x
        by_cases hxt : x = c.toEntity
        · rw [hxt, hCt]
        · rw [hCx x hxt]
          by_cases hxf : x = c.fromEntity
          · rw [hxf, hBf]
          · rw [hBx x hxf, hAx x hxf hxt]
      rw [hCC, hst']
    · apply addCircuitConnection_dup
      · rw [hste]
        exact ⟨h1.2, h1.1⟩
      · refine ⟨c, ?_, by simp [circuitConnectionEquals]⟩
        show c ∈ circuitSet st'.circuitConnections c.toEntity c.fromEntity
        have hinner : circuitInner st'.circuitConnections c.toEntity =
            (circuitInner st.circuitConnections c.toEntity).insert c.fromEntity
              (insert c (circuitSet st.circuitConnections c.toEntity c.fromEntity)) := by
          unfold circuitInner
          rw [hAt]
          rfl
        unfold circuitSet
        rw [hinner, Finmap.lookup_insert]
        exact Finset.mem_insert_self c _

/-- A concrete content with two entities and no connections. -/
def c8Empty : AssemblyContent :=
  { entities := {0, 1}, circuitConnections := ∅, cableConnections := ∅,
    extraCableConnectionPoints := ∅ }

/-- A concrete circuit connection between the two entities. -/
def c8Conn : CircuitConnection :=
  { fromEntity := 0, fromId := 1, toEntity := 1, toId := 1, wire := 2 }

/-- The content after recording `c8Conn`. -/
def c8Added : AssemblyContent := (addCircuitConnection c8Empty c8Conn).2

/-- Counterexample to C8 as stated: at a store where the connection is already
recorded, both endpoint entities are present, yet `addCircuitConnection`
followed by `removeCircuitConnection` does not restore the prior state — the
re-add is rejected as a duplicate without adding anything, and the removal then
erases the pre-existing connection. -/
theorem c8_counterexample :
    c8Conn.fromEntity ∈ c8Added.entities ∧ c8Conn.toEntity ∈ c8Added.entities ∧
    removeCircuitConnection (addCircuitConnection c8Added c8Conn).2 c8Conn ≠ c8Added := by
  decide

theorem c8WF_empty : CircuitWF c8Empty.circuitConnections := by
  refine ⟨fun a b => ?_, fun a => ?_, fun a m b s ha => ?_⟩
  · show (((c8Empty.circuitConnections.lookup a).getD ∅).lookup b).getD ∅ =
      (((c8Empty.circuitConnections.lookup b).getD ∅).lookup a).getD ∅
    rw [show c8Empty.circuitConnections = (∅ : CircuitMap) from rfl,
      Finmap.lookup_empty, Finmap.lookup_empty]
    simp [Finmap.lookup_empty]
  · show (∅ : CircuitMap).lookup a ≠ some ∅
    rw [Finmap.lookup_empty]
    simp
  · rw [show c8Empty.circuitConnections = (∅ : CircuitMap) from rfl,
      Finmap.lookup_empty] at ha
    cases ha

/-- Witness for C8 at the empty two-entity store. -/
theorem c8_circuit_roundtrip_witness :
    removeCircuitConnection c8Added c8Conn = c8Empty ∧
    addCircuitConnection c8Added (mirrorConnection c8Conn) = (false, c8Added) :=
  c8_circuit_roundtrip c8Empty c8Added c8Conn c8WF_empty (by decide)

/-! ### The cable graph -/

/-- The result codes of `addCableConnection`. -/
inductive CableAddResult where
  | Added
  | Error
  | AlreadyExists
  | MaxConnectionsReached
  deriving DecidableEq

/-- The cable degree cap (`MaxCableConnections`, hard-coded in the game). -/
def MaxCableConnections : ℕ := 5

/-- Embeds `getConnectionPointKey` without `createIfAbsent`: plain entities
are their own key; a power-switch point has a key only once registered (the
interned canonical key object for `(e, id)` is the value `CPoint.sw e id`
here). -/
def getConnectionPointKey (st : AssemblyContent) : CPoint → Option CPoint
  | .ent e => some (.ent e)
  | .sw e cid =>
    if cid ∈ (st.extraCableConnectionPoints.lookup e).getD ∅ then some (.sw e cid) else none

/-- Embeds `getConnectionPointKey` with `createIfAbsent`: registers the
power-switch point; plain entities need no registration. -/
def registerPoint (st : AssemblyContent) : CPoint → AssemblyContent
  | .ent _ => st
  | .sw e cid =>
    { st with extraCableConnectionPoints := st.extraCableConnectionPoints.insert e (insert cid ((st.extraCableConnectionPoints.lookup e).getD ∅)) }

theorem registerPoint_cable (st : AssemblyContent) (p : CPoint) :
    (registerPoint st p).cableConnections = st.cableConnections := by
  cases p <;> rfl

theorem registerPoint_entities (st : AssemblyContent) (p : CPoint) :
    (registerPoint st p).entities = st.entities := by
  cases p <;> rfl

/-- One side of `removeCableConnection`: delete `other` from `k`'s neighbour
set, dropping the entry when emptied. -/
def removeCableSide (cm : CableMap) (k other : CPoint) : CableMap :=
  match cm.lookup k with
  | none => cm
  | some d =>
    let d' := d.erase other
    if d' = ∅ then cm.erase k else cm.insert k d'

/-- Embeds `removeCableConnection`: rejects self-loops and absent entities,
requires both keys to be registered, then deletes the edge from both sides
(the second side reads the state the first left). -/
def removeCableConnection (st : AssemblyContent) (p1 p2 : CPoint) : AssemblyContent :=
  if p1.entityOf = p2.entityOf ∨ p1.entityOf ∉ st.entities ∨ p2.entityOf ∉ st.entities then st
  else
    match getConnectionPointKey st p1, getConnectionPointKey st p2 with
    | some k1, some k2 =>
      { st with cableConnections := removeCableSide (removeCableSide st.cableConnections k1 k2) k2 k1 }
    | _, _ => st

/-- The power-switch replacement step of `addCableConnection`: a switch port
holds at most one neighbour, so an existing connection on the port is removed
before the new one is added (`next(data)[0]` picks some neighbour of the
port's singleton set; iteration order is irrelevant for singletons, modelled
by the least element). -/
def replaceSwitchConnection (st : AssemblyContent) (p : CPoint)
    (data : Option (Finset CPoint)) : AssemblyContent :=
  match data with
  | none => st
  | some d =>
    if p.isSwitch then
      match (d.sort (· ≤ ·)).head? with
      | some q => removeCableConnection st q p
      | none => st
    else st

/-- Embeds `addCableConnection`: reject self-loops and absent entities, intern
both keys, reject duplicates, enforce the degree cap per endpoint before any
mutation of the cable graph, replace existing switch-port connections, then
record the edge on both sides.  (For an endpoint with no stored entry the
duplicate and cap checks are vacuous, as in the source where they sit under
`if (data)`.) -/
def addCableConnection (st : AssemblyContent) (p1 p2 : CPoint) :
    CableAddResult × AssemblyContent :=
  if p1.entityOf = p2.entityOf then (CableAddResult.Error, st)
  else if p1.entityOf ∉ st.entities ∨ p2.entityOf ∉ st.entities then (CableAddResult.Error, st)
  else
    let st1 := registerPoint (registerPoint st p1) p2
    let data1 := st1.cableConnections.lookup p1
    let data2 := st1.cableConnections.lookup p2
    if p2 ∈ data1.getD ∅ then (CableAddResult.AlreadyExists, st1)
    else if MaxCableConnections ≤ (data1.getD ∅).card then
      (CableAddResult.MaxConnectionsReached, st1)
    else if p1 ∈ data2.getD ∅ then (CableAddResult.AlreadyExists, st1)
    else if MaxCableConnections ≤ (data2.getD ∅).card then
      (CableAddResult.MaxConnectionsReached, st1)
    else
      let st2 := replaceSwitchConnection st1 p1 data1
      let st3 := replaceSwitchConnection st2 p2 data2
      let data1b := st3.cableConnections.lookup p1
      let data2b := st3.cableConnections.lookup p2
      let cm1 := st3.cableConnections.insert p1 (insert p2 (data1b.getD ∅))
      let cm2 := cm1.insert p2 (insert p1 (data2b.getD ∅))
      (CableAddResult.Added, { st3 with cableConnections := cm2 })

/-- C6 (amended): `addCableConnection` returns `Error` without any mutation
for a self-loop or an endpoint entity absent from the store; and whenever both
endpoint entities are distinct and present, the edge is not already recorded
on either side, and either endpoint already has 5 cable connections, it
returns `MaxConnectionsReached` and leaves the cable graph completely
unchanged (no partial connection). -/
theorem c6_addCableConnection_spec (st : AssemblyContent) (p1 p2 : CPoint) :
    ((p1.entityOf = p2.entityOf ∨ p1.entityOf ∉ st.entities ∨ p2.entityOf ∉ st.entities) →
      addCableConnection st p1 p2 = (CableAddResult.Error, st)) ∧
    (p1.entityOf ≠ p2.entityOf → p1.entityOf ∈ st.entities → p2.entityOf ∈ st.entities →
      p2 ∉ (st.cableConnections.lookup p1).getD ∅ →
      p1 ∉ (st.cableConnections.lookup p2).getD ∅ →
      (MaxCableConnections ≤ ((st.cableConnections.lookup p1).getD ∅).card ∨
        MaxCableConnections ≤ ((st.cableConnections.lookup p2).getD ∅).card) →
      (addCableConnection st p1 p2).1 = CableAddResult.MaxConnectionsReached ∧
      (addCableConnection st p1 p2).2.cableConnections = st.cableConnections) := by
  have hr : (registerPoint (registerPoint st p1) p2).cableConnections =
      st.cableConnections := by
    rw [registerPoint_cable, registerPoint_cable]
  constructor
  · intro h
    unfold addCableConnection
    by_cases hself : p1.entityOf = p2.entityOf
    · rw [if_pos hself]
    · rw [if_neg hself, if_pos (h.resolve_left hself)]
  · intro hself hm1 hm2 hd1 hd2 hcap
    have hpres : ¬(p1.entityOf ∉ st.entities ∨ p2.entityOf ∉ st.entities) := by
      push_neg
      exact ⟨hm1, hm2⟩
    have heq : addCableConnection st p1 p2 =
        (CableAddResult.MaxConnectionsReached, registerPoint (registerPoint st p1) p2) := by
      unfold addCableConnection
      rw [if_neg hself, if_neg hpres]
      simp only [hr]
      rw [if_neg hd1]
      rcases hcap with hcap | hcap
      · rw [if_pos hcap]
      · by_cases hcap1 : MaxCableConnections ≤ ((st.cableConnections.lookup p1).getD ∅).card
        · rw [if_pos hcap1]
        · rw [if_neg hcap1, if_neg hd2, if_pos hcap]
    rw [heq, hr]
    exact ⟨rfl, rfl⟩

/-- Seven entities, no connections yet. -/
def c6Base : AssemblyContent :=
  { entities := {0, 1, 2, 3, 4, 5, 6}, circuitConnections := ∅, cableConnections := ∅,
    extraCableConnectionPoints := ∅ }

/-- Entity 0 cable-connected to entities 1 through 5 (degree 5). -/
def c6St : AssemblyContent :=
  [1, 2, 3, 4, 5].foldl (fun s k => (addCableConnection s (CPoint.ent 0) (CPoint.ent k)).2) c6Base

/-- Counterexample to C6 as stated: entity 0 has 5 cable connections and both
endpoints are distinct and present, yet re-adding the already-recorded edge
0–5 returns `AlreadyExists`, not `MaxConnectionsReached` (the duplicate check
runs before the degree-cap check). -/
theorem c6_counterexample :
    (CPoint.ent 0).entityOf ≠ (CPoint.ent 5).entityOf ∧
    (CPoint.ent 0).entityOf ∈ c6St.entities ∧
    (CPoint.ent 5).entityOf ∈ c6St.entities ∧
    MaxCableConnections ≤ ((c6St.cableConnections.lookup (CPoint.ent 0)).getD ∅).card ∧
    (addCableConnection c6St (CPoint.ent 0) (CPoint.ent 5)).1 = CableAddResult.AlreadyExists := by
  decide

/-- Witness for C6: adding a sixth, fresh edge at a degree-5 node is refused
with `MaxConnectionsReached` and the cable graph is untouched. -/
theorem c6_addCableConnection_spec_witness :
    (addCableConnection c6St (CPoint.ent 0) (CPoint.ent 6)).1 =
      CableAddResult.MaxConnectionsReached ∧
    (addCableConnection c6St (CPoint.ent 0) (CPoint.ent 6)).2.cableConnections =
      c6St.cableConnections :=
  (c6_addCableConnection_spec c6St (CPoint.ent 0) (CPoint.ent 6)).2 (by decide) (by decide)
    (by decide) (by decide) (by decide) (by decide)

/-! ### Deletion (`AssemblyContentImpl.delete`) -/

/-- The body of the `removeAllConnections` loop on the cable graph: delete `k`
from `other`'s neighbour set, dropping the entry if it empties. -/
def cableDropStep (k : CPoint) (acc : CableMap) (other : CPoint) : CableMap :=
  match acc.lookup other with
  | none => acc
  | some od =>
    let od' := od.erase k
    if od' = ∅ then acc.erase other else acc.insert other od'

/-- The loop of `removeAllConnections` on the cable graph: drop the key's own
entry, then delete the key from each former neighbour's set, dropping entries
that empty.  The neighbours are iterated in sorted order; distinct neighbours
touch distinct entries, so the order does not matter. -/
def removeAllCable (cm : CableMap) (k : CPoint) : CableMap :=
  match cm.lookup k with
  | none => cm
  | some data => (data.sort (· ≤ ·)).foldl (cableDropStep k) (cm.erase k)

/-- The body of the `removeAllConnections` loop on the circuit double index:
delete the inner entry for `e` from `other`'s inner map, dropping it if it
empties. -/
def circuitDropStep (e : ℕ) (acc : CircuitMap) (other : ℕ) : CircuitMap :=
  match acc.lookup other with
  | none => acc
  | some om =>
    let om' := om.erase e
    if om' = ∅ then acc.erase other else acc.insert other om'

/-- The loop of `removeAllConnections` on the circuit double index: drop the
entity's own entry, then delete the entity's key from each former
counterpart's inner map, dropping inner maps that empty. -/
def removeAllCircuit (cc : CircuitMap) (e : ℕ) : CircuitMap :=
  match cc.lookup e with
  | none => cc
  | some m => (m.keys.sort (· ≤ ·)).foldl (circuitDropStep e) (cc.erase e)

/-- Embeds `AssemblyContentImpl.delete` (the connection-graph part; the
`byPosition` bucket removal concerns only the spatial index modelled
separately): remove the entity, all its circuit connections, all cable
connections of the entity and of each of its registered power-switch points,
and its registration entry. -/
def contentDelete (st : AssemblyContent) (e : ℕ) : AssemblyContent :=
  if e ∉ st.entities then st
  else
    let cm1 := removeAllCable st.cableConnections (CPoint.ent e)
    let extraIds := (st.extraCableConnectionPoints.lookup e).getD ∅
    let cm2 := (extraIds.sort (· ≤ ·)).foldl (fun acc cid => removeAllCable acc (CPoint.sw e cid)) cm1
    { entities := st.entities.erase e
      circuitConnections := removeAllCircuit st.circuitConnections e
      cableConnections := cm2
      extraCableConnectionPoints := st.extraCableConnectionPoints.erase e }

/-! ### Lookup characterization of `removeAllCable` -/

theorem cableDropStep_lookup_ne {x other : CPoint} (hx : x ≠ other) (k : CPoint)
    (acc : CableMap) : (cableDropStep k acc other).lookup x = acc.lookup x := by
  unfold cableDropStep
  cases h : acc.lookup other with
  | none => rfl
  | some od =>
    simp only []
    split
    · rw [Finmap.lookup_erase_ne hx]
    · rw [Finmap.lookup_insert_of_ne _ hx]

theorem cableDropStep_lookup_self (k : CPoint) (acc : CableMap) (other : CPoint) :
    (cableDropStep k acc other).lookup other =
      if ((acc.lookup other).getD ∅).erase k = ∅ then none
      else some (((acc.lookup other).getD ∅).erase k) := by
  unfold cableDropStep
  cases h : acc.lookup other with
  | none =>
    simp [h]
  | some od =>
    simp only [h, Option.getD_some]
    split
    · exact Finmap.lookup_erase other acc
    · exact Finmap.lookup_insert acc

theorem cableDropFold_lookup (k : CPoint) :
    ∀ (L : List CPoint) (m0 : CableMap), L.Nodup →
      ∀ x : CPoint,
        (L.foldl (cableDropStep k) m0).lookup x =
          if x ∈ L then
            (if ((m0.lookup x).getD ∅).erase k = ∅ then none
              else some (((m0.lookup x).getD ∅).erase k))
          else m0.lookup x
  | [], m0, _, x => by simp
  | other :: rest, m0, hnd, x => by
    rw [List.foldl_cons]
    obtain ⟨hother, hndr⟩ := List.nodup_cons.mp hnd
    have ih := cableDropFold_lookup k rest (cableDropStep k m0 other) hndr x
    rw [ih]
    by_cases hxo : x = other
    · subst hxo
      rw [if_neg hother, if_pos (List.mem_cons_self _ _), cableDropStep_lookup_self]
    · by_cases hxr : x ∈ rest
      · rw [if_pos hxr, if_pos (List.mem_cons_of_mem _ hxr),
          cableDropStep_lookup_ne hxo]
      · rw [if_neg hxr, cableDropStep_lookup_ne hxo,
          if_neg (by simp [List.mem_cons, hxo, hxr])]

theorem removeAllCable_eq_of_none {cm : CableMap} {k : CPoint}
    (hk : cm.lookup k = none) : removeAllCable cm k = cm := by
  unfold removeAllCable
  simp [hk]

theorem removeAllCable_lookup_some {cm : CableMap} {k : CPoint} {data : Finset CPoint}
    (hk : cm.lookup k = some data) (x : CPoint) :
    (removeAllCable cm k).lookup x =
      if x = k then none
      else if x ∈ data then
        (if ((cm.lookup x).getD ∅).erase k = ∅ then none
          else some (((cm.lookup x).getD ∅).erase k))
      else cm.lookup x := by
  unfold removeAllCable
  simp only [hk]
  rw [cableDropFold_lookup k (data.sort (· ≤ ·)) (cm.erase k) (Finset.sort_nodup _ _) x]
  simp only [Finset.mem_sort]
  by_cases hxk : x = k
  · subst hxk
    have hnone : (cm.erase x).lookup x = none := Finmap.lookup_erase x cm
    rw [if_pos rfl]
    by_cases hmem : x ∈ data
    · rw [if_pos hmem, hnone]
      simp
    · rw [if_neg hmem, hnone]
  · rw [if_neg hxk, Finmap.lookup_erase_ne hxk]

/-- The cable graph references a point when it is a key or a member of a
stored neighbour set. -/
def cableRefs (cm : CableMap) (q : CPoint) : Prop :=
  (cm.lookup q).isSome = true ∨ ∃ k d, cm.lookup k = some d ∧ q ∈ d

/-- Symmetry of the cable graph, as `_assertCorrect` checks: every recorded
neighbour records the edge back. -/
def CableSym (cm : CableMap) : Prop :=
  ∀ k d q, cm.lookup k = some d → q ∈ d → ∃ d', cm.lookup q = some d' ∧ k ∈ d'

theorem removeAllCable_shrink {cm : CableMap} {k x : CPoint} {d' : Finset CPoint}
    (h : (removeAllCable cm k).lookup x = some d') :
    ∃ d, cm.lookup x = some d ∧ d' ⊆ d := by
  cases hk : cm.lookup k with
  | none =>
    rw [removeAllCable_eq_of_none hk] at h
    exact ⟨d', h, subset_rfl⟩
  | some data =>
    rw [removeAllCable_lookup_some hk] at h
    by_cases hxk : x = k
    · rw [if_pos hxk] at h
      cases h
    · rw [if_neg hxk] at h
      by_cases hmem : x ∈ data
      · rw [if_pos hmem] at h
        by_cases he : ((cm.lookup x).getD ∅).erase k = ∅
        · rw [if_pos he] at h
          cases h
        · rw [if_neg he] at h
          obtain rfl := Option.some_injective _ h
          have hg : ((cm.lookup x).getD ∅).Nonempty := by
            rcases Finset.eq_empty_or_nonempty ((cm.lookup x).getD ∅) with h0 | h0
            · rw [h0] at he
              exact absurd (Finset.erase_empty k) he
            · exact h0
          exact ⟨_, finmap_getD_of_ne_empty _ _ hg, Finset.erase_subset _ _⟩
      · rw [if_neg hmem] at h
        exact ⟨d', h, subset_rfl⟩

theorem cableRefs_mono {cm : CableMap} {k q : CPoint}
    (h : cableRefs (removeAllCable cm k) q) : cableRefs cm q := by
  rcases h with h | ⟨x, d, hx, hq⟩
  · obtain ⟨d', hd'⟩ := Option.isSome_iff_exists.mp h
    obtain ⟨d0, hd0, _⟩ := removeAllCable_shrink hd'
    exact Or.inl (by rw [hd0]; rfl)
  · obtain ⟨d0, hd0, hsub⟩ := removeAllCable_shrink hx
    exact Or.inr ⟨x, d0, hd0, hsub hq⟩

theorem removeAllCable_kills {cm : CableMap} (hsym : CableSym cm) (k : CPoint) :
    ¬cableRefs (removeAllCable cm k) k := by
  intro href
  rcases href with h | ⟨x, d', hx, hkd⟩
  · obtain ⟨dk, hdk⟩ := Option.isSome_iff_exists.mp h
    cases hk0 : cm.lookup k with
    | none =>
      rw [removeAllCable_eq_of_none hk0, hk0] at hdk
      cases hdk
    | some data =>
      rw [removeAllCable_lookup_some hk0, if_pos rfl] at hdk
      cases hdk
  · cases hk0 : cm.lookup k with
    | none =>
      rw [removeAllCable_eq_of_none hk0] at hx
      obtain ⟨dk, hdk, _⟩ := hsym x d' k hx hkd
      rw [hk0] at hdk
      cases hdk
    | some data =>
      rw [removeAllCable_lookup_some hk0] at hx
      by_cases hxk : x = k
      · rw [if_pos hxk] at hx
        cases hx
      · rw [if_neg hxk] at hx
        by_cases hmem : x ∈ data
        · rw [if_pos hmem] at hx
          by_cases he : ((cm.lookup x).getD ∅).erase k = ∅
          · rw [if_pos he] at hx
            cases hx
          · rw [if_neg he] at hx
            obtain rfl := Option.some_injective _ hx
            exact absurd hkd (Finset.not_mem_erase k _)
        · rw [if_neg hmem] at hx
          obtain ⟨dk, hdk, hxdk⟩ := hsym x d' k hx hkd
          rw [hk0] at hdk
          obtain rfl := Option.some_injective _ hdk
          exact hmem hxdk

theorem removeAllCable_sym {cm : CableMap} (hsym : CableSym cm) (k : CPoint) :
    CableSym (removeAllCable cm k) := by
  intro a da b hda hb
  obtain ⟨d0a, hd0a, hsuba⟩ := removeAllCable_shrink hda
  have hb0 : b ∈ d0a := hsuba hb
  obtain ⟨d0b, hd0b, had0b⟩ := hsym a d0a b hd0a hb0
  have hak : a ≠ k := by
    intro heq
    apply removeAllCable_kills hsym k
    rw [heq] at hda
    exact Or.inl (by rw [hda]; rfl)
  have hbk : b ≠ k := by
    intro heq
    apply removeAllCable_kills hsym k
    exact Or.inr ⟨a, da, hda, heq ▸ hb⟩
  cases hk0 : cm.lookup k with
  | none =>
    rw [removeAllCable_eq_of_none hk0]
    exact ⟨d0b, hd0b, had0b⟩
  | some data =>
    rw [removeAllCable_lookup_some hk0, if_neg hbk]
    by_cases hmem : b ∈ data
    · rw [if_pos hmem, hd0b]
      have hane : a ∈ ((some d0b).getD ∅).erase k := Finset.mem_erase.mpr ⟨hak, had0b⟩
      rw [if_neg (Finset.ne_empty_of_mem hane)]
      exact ⟨_, rfl, hane⟩
    · rw [if_neg hmem]
      exact ⟨d0b, hd0b, had0b⟩

theorem foldRemoveCable_sym {ps : List CPoint} :
    ∀ {cm : CableMap}, CableSym cm → CableSym (ps.foldl removeAllCable cm) := by
  induction ps with
  | nil => exact fun h => h
  | cons p rest ih => exact fun h => ih (removeAllCable_sym h p)

theorem foldRemoveCable_mono {ps : List CPoint} {q : CPoint} :
    ∀ {cm : CableMap}, cableRefs (ps.foldl removeAllCable cm) q → cableRefs cm q := by
  induction ps with
  | nil => exact fun h => h
  | cons p rest ih => exact fun h => cableRefs_mono (ih h)

theorem foldRemoveCable_kills {ps : List CPoint} :
    ∀ {cm : CableMap}, CableSym cm → ∀ q ∈ ps, ¬cableRefs (ps.foldl removeAllCable cm) q := by
  induction ps with
  | nil => exact fun _ q hq => absurd hq (List.not_mem_nil q)
  | cons p rest ih =>
    intro cm hsym q hq
    rcases List.mem_cons.mp hq with rfl | hqr
    · intro href
      exact removeAllCable_kills hsym q (foldRemoveCable_mono href)
    · exact ih (removeAllCable_sym hsym p) q hqr

/-! ### Lookup characterization of `removeAllCircuit` -/

theorem finmap_erase_empty {α β : Type} [DecidableEq α] (a : α) :
    (∅ : Finmap (fun _ : α => β)).erase a = ∅ :=
  finmap_erase_absent _ _ (Finmap.lookup_empty a)

theorem finmap_ne_empty_of_mem {α β : Type} [DecidableEq α]
    {m : Finmap (fun _ : α => β)} {a : α} (h : a ∈ m) : m ≠ ∅ := by
  rintro rfl
  exact Finmap.not_mem_empty h

theorem finmap_getD_of_mem {α β : Type} [DecidableEq α]
    (m : Finmap (fun _ : α => Finmap (fun _ : α => β))) (k : α)
    (h : (m.lookup k).getD ∅ ≠ ∅) : m.lookup k = some ((m.lookup k).getD ∅) := by
  cases hk : m.lookup k with
  | none =>
    rw [hk] at h
    exact absurd rfl h
  | some v =>
    rfl

theorem circuitDropStep_lookup_ne {x other : ℕ} (hx : x ≠ other) (e : ℕ)
    (acc : CircuitMap) : (circuitDropStep e acc other).lookup x = acc.lookup x := by
  unfold circuitDropStep
  cases h : acc.lookup other with
  | none => rfl
  | some om =>
    simp only []
    split
    · rw [Finmap.lookup_erase_ne hx]
    · rw [Finmap.lookup_insert_of_ne _ hx]

theorem circuitDropStep_lookup_self (e : ℕ) (acc : CircuitMap) (other : ℕ) :
    (circuitDropStep e acc other).lookup other =
      if ((acc.lookup other).getD ∅).erase e = ∅ then none
      else some (((acc.lookup other).getD ∅).erase e) := by
  unfold circuitDropStep
  cases h : acc.lookup other with
  | none =>
    simp [h, finmap_erase_empty]
  | some om =>
    simp only [h, Option.getD_some]
    split
    · exact Finmap.lookup_erase other acc
    · exact Finmap.lookup_insert acc

theorem circuitDropFold_lookup (e : ℕ) :
    ∀ (L : List ℕ) (m0 : CircuitMap), L.Nodup →
      ∀ x : ℕ,
        (L.foldl (circuitDropStep e) m0).lookup x =
          if x ∈ L then
            (if ((m0.lookup x).getD ∅).erase e = ∅ then none
              else some (((m0.lookup x).getD ∅).erase e))
          else m0.lookup x
  | [], m0, _, x => by simp
  | other :: rest, m0, hnd, x => by
    rw [List.foldl_cons]
    obtain ⟨hother, hndr⟩ := List.nodup_cons.mp hnd
    have ih := circuitDropFold_lookup e rest (circuitDropStep e m0 other) hndr x
    rw [ih]
    by_cases hxo : x = other
    · subst hxo
      rw [if_neg hother, if_pos (List.mem_cons_self _ _), circuitDropStep_lookup_self]
    · by_cases hxr : x ∈ rest
      · rw [if_pos hxr, if_pos (List.mem_cons_of_mem _ hxr),
          circuitDropStep_lookup_ne hxo]
      · rw [if_neg hxr, circuitDropStep_lookup_ne hxo,
          if_neg (by simp [List.mem_cons, hxo, hxr])]

theorem removeAllCircuit_eq_of_none {cc : CircuitMap} {e : ℕ}
    (hk : cc.lookup e = none) : removeAllCircuit cc e = cc := by
  unfold removeAllCircuit
  simp [hk]

theorem removeAllCircuit_lookup_some {cc : CircuitMap} {e : ℕ} {me : CircuitInner}
    (hk : cc.lookup e = some me) (x : ℕ) :
    (removeAllCircuit cc e).lookup x =
      if x = e then none
      else if x ∈ me.keys then
        (if ((cc.lookup x).getD ∅).erase e = ∅ then none
          else some (((cc.lookup x).getD ∅).erase e))
      else cc.lookup x := by
  unfold removeAllCircuit
  simp only [hk]
  rw [circuitDropFold_lookup e (me.keys.sort (· ≤ ·)) (cc.erase e) (Finset.sort_nodup _ _) x]
  simp only [Finset.mem_sort]
  by_cases hxk : x = e
  · subst hxk
    have hnone : (cc.erase x).lookup x = none := Finmap.lookup_erase x cc
    rw [if_pos rfl]
    by_cases hmem : x ∈ me.keys
    · rw [if_pos hmem, hnone]
      simp [finmap_erase_empty]
    · rw [if_neg hmem, hnone]
  · rw [if_neg hxk, Finmap.lookup_erase_ne hxk]

/-- Symmetry of the circuit double index, as `_assertCorrect` checks. -/
def CircuitSym (cc : CircuitMap) : Prop :=
  ∀ a m b, cc.lookup a = some m → b ∈ m → ∃ m', cc.lookup b = some m' ∧ a ∈ m'

theorem removeAllCircuit_kills {cc : CircuitMap} (hsym : CircuitSym cc) (e : ℕ) :
    (removeAllCircuit cc e).lookup e = none ∧
    ∀ a m, (removeAllCircuit cc e).lookup a = some m → e ∉ m := by
  constructor
  · cases hk0 : cc.lookup e with
    | none => rw [removeAllCircuit_eq_of_none hk0, hk0]
    | some me => rw [removeAllCircuit_lookup_some hk0, if_pos rfl]
  · intro a m ha hem
    cases hk0 : cc.lookup e with
    | none =>
      rw [removeAllCircuit_eq_of_none hk0] at ha
      obtain ⟨m', hm', _⟩ := hsym a m e ha hem
      rw [hk0] at hm'
      cases hm'
    | some me =>
      rw [removeAllCircuit_lookup_some hk0] at ha
      by_cases hxk : a = e
      · rw [if_pos hxk] at ha
        cases ha
      · rw [if_neg hxk] at ha
        by_cases hmem : a ∈ me.keys
        · rw [if_pos hmem] at ha
          by_cases he : ((cc.lookup a).getD ∅).erase e = ∅
          · rw [if_pos he] at ha
            cases ha
          · rw [if_neg he] at ha
            obtain rfl := Option.some_injective _ ha
            exact Finmap.not_mem_erase_self hem
        · rw [if_neg hmem] at ha
          obtain ⟨m', hm', ham'⟩ := hsym a m e ha hem
          rw [hk0] at hm'
          obtain rfl := Option.some_injective _ hm'
          exact hmem (Finmap.mem_keys.mpr ham')

/-- A power-switch connection point occurring anywhere in the cable graph is
registered in `extraCableConnectionPoints` (as `_assertCorrect` asserts via
`getConnectionPointKey(point) != nil`). -/
def SwitchRegistered (st : AssemblyContent) : Prop :=
  ∀ e cid, cableRefs st.cableConnections (CPoint.sw e cid) →
    cid ∈ (st.extraCableConnectionPoints.lookup e).getD ∅

/-- C10: after `delete(entity)` on a well-formed store, no circuit-connection
or cable-connection entry anywhere references the deleted entity or any of its
power-switch connection points — deletion removes both sides of every incident
edge — and the entity is gone from the store. -/
theorem c10_delete_no_dangling (st : AssemblyContent) (e : ℕ) (he : e ∈ st.entities)
    (hcsym : CircuitSym st.circuitConnections)
    (hsym : CableSym st.cableConnections)
    (hreg : SwitchRegistered st) :
    e ∉ (contentDelete st e).entities ∧
    ((contentDelete st e).circuitConnections.lookup e = none ∧
      ∀ a m, (contentDelete st e).circuitConnections.lookup a = some m → e ∉ m) ∧
    ∀ q : CPoint, q.entityOf = e → ¬cableRefs (contentDelete st e).cableConnections q := by
  have hdel : contentDelete st e =
      { entities := st.entities.erase e
        circuitConnections := removeAllCircuit st.circuitConnections e
        cableConnections := (((st.extraCableConnectionPoints.lookup e).getD ∅).sort (· ≤ ·)).foldl (fun acc cid => removeAllCable acc (CPoint.sw e cid)) (removeAllCable st.cableConnections (CPoint.ent e))
        extraCableConnectionPoints := st.extraCableConnectionPoints.erase e } := by
    unfold contentDelete
    rw [if_neg (not_not_intro he)]
  rw [hdel]
  have hcable : ((((st.extraCableConnectionPoints.lookup e).getD ∅).sort (· ≤ ·)).foldl (fun acc cid => removeAllCable acc (CPoint.sw e cid)) (removeAllCable st.cableConnections (CPoint.ent e)) : CableMap) =
      (CPoint.ent e :: ((((st.extraCableConnectionPoints.lookup e).getD ∅).sort (· ≤ ·)).map (CPoint.sw e))).foldl removeAllCable st.cableConnections := by
    rw [List.foldl_cons, List.foldl_map]
  refine ⟨Finset.not_mem_erase e st.entities, removeAllCircuit_kills hcsym e, ?_⟩
  intro q hq href
  rw [show ({ entities := st.entities.erase e, circuitConnections := removeAllCircuit st.circuitConnections e, cableConnections := (((st.extraCableConnectionPoints.lookup e).getD ∅).sort (· ≤ ·)).foldl (fun acc cid => removeAllCable acc (CPoint.sw e cid)) (removeAllCable st.cableConnections (CPoint.ent e)), extraCableConnectionPoints := st.extraCableConnectionPoints.erase e } : AssemblyContent).cableConnections = (((st.extraCableConnectionPoints.lookup e).getD ∅).sort (· ≤ ·)).foldl (fun acc cid => removeAllCable acc (CPoint.sw e cid)) (removeAllCable st.cableConnections (CPoint.ent e)) from rfl, hcable] at href
  cases q with
  | ent e' =>
    have he' : e' = e := hq
    subst he'
    exact foldRemoveCable_kills hsym (CPoint.ent e') (List.mem_cons_self _ _) href
  | sw e' cid =>
    have he' : e' = e := hq
    subst he'
    by_cases hcid : cid ∈ (st.extraCableConnectionPoints.lookup e').getD ∅
    · have hmem : CPoint.sw e' cid ∈
          CPoint.ent e' :: ((((st.extraCableConnectionPoints.lookup e').getD ∅).sort (· ≤ ·)).map (CPoint.sw e')) :=
        List.mem_cons_of_mem _
          (List.mem_map_of_mem (CPoint.sw e') ((Finset.mem_sort _).mpr hcid))
      exact foldRemoveCable_kills hsym (CPoint.sw e' cid) hmem href
    · exact hcid (hreg e' cid (foldRemoveCable_mono href))

/-- A small store for the C10 witness: two entities and empty graphs. -/
def c10St : AssemblyContent :=
  { entities := {0, 1}, circuitConnections := ∅, cableConnections := ∅,
    extraCableConnectionPoints := ∅ }

/-- Witness for C10 at the two-entity store. -/
theorem c10_delete_no_dangling_witness :
    0 ∉ (contentDelete c10St 0).entities ∧
    ((contentDelete c10St 0).circuitConnections.lookup 0 = none ∧
      ∀ a m, (contentDelete c10St 0).circuitConnections.lookup a = some m → 0 ∉ m) ∧
    ∀ q : CPoint, q.entityOf = 0 → ¬cableRefs (contentDelete c10St 0).cableConnections q := by
  apply c10_delete_no_dangling c10St 0 (by decide)
  · intro a m b ha
    rw [show c10St.circuitConnections = (∅ : CircuitMap) from rfl, Finmap.lookup_empty] at ha
    cases ha
  · intro k d q hk
    rw [show c10St.cableConnections = (∅ : CableMap) from rfl, Finmap.lookup_empty] at hk
    cases hk
  · intro e cid href
    rcases href with h | ⟨k, d, hk, _⟩
    · rw [show c10St.cableConnections = (∅ : CableMap) from rfl, Finmap.lookup_empty] at h
      cases h
    · rw [show c10St.cableConnections = (∅ : CableMap) from rfl, Finmap.lookup_empty] at hk
      cases hk

/-! ### The update protocol (`project-updates.ts`) -/

/-- Result codes of entity updates. -/
inductive EntityUpdateResult where
  | Updated
  | NoChange
  | CannotRotate
  | CannotUpgradeChangedPair
  deriving DecidableEq

/-- Result codes of stage moves. -/
inductive StageMoveResult where
  | Updated
  | NoChange
  | CannotMovePastLastStage
  | CannotMoveBeforeFirstStage
  | IntersectsAnotherEntity
  deriving DecidableEq

/-- Calls issued to the world adapter (`WorldEntityUpdates`), recorded as
data: the update protocol's effect on rendered instances. -/
inductive WorldCmd where
  | updateWorldEntities (entityId : ℕ) (startStage : ℕ) (updateHighlights : Bool)
  | updateAllHighlights (entityId : ℕ)
  | refreshWorldEntityAtStage (entityId : ℕ) (stage : ℕ)
  | resetUndergroundAt (entityId : ℕ) (stage : ℕ)
  | forceFlipUndergroundOf (entityId : ℕ)
  | makeSettingsRemnantOf (entityId : ℕ)
  | deleteWorldEntitiesOf (entityId : ℕ)
  deriving DecidableEq

/-- The calls of `updatePair`: update both members without highlights, then
both highlight sets. -/
def updatePairCmds (e1 s1 e2 s2 : ℕ) : List WorldCmd :=
  [WorldCmd.updateWorldEntities e1 s1 false, WorldCmd.updateWorldEntities e2 s2 false,
    WorldCmd.updateAllHighlights e1, WorldCmd.updateAllHighlights e2]

/-- An underground-belt project entity (`UndergroundBeltProjectEntity`): id
(standing for Lua object identity), stored direction, first stage, first value
(`{name, type}` with `type` tracked as "is input side"), and the staged name
overrides recorded by upgrades at higher stages, key-sorted. -/
structure UBBelt where
  id : ℕ
  direction : ℕ
  firstStage : ℕ
  baseName : String
  baseInput : Bool
  nameDiffs : List (ℕ × String)
  deriving DecidableEq

/-- The loop of the staged name: apply overrides in increasing stage order up
to the stage. -/
def nameAt (base : String) (stage : ℕ) : List (ℕ × String) → String
  | [] => base
  | (cl, n) :: rest => if stage < cl then base else nameAt n stage rest

/-- Embeds `getNameAtStage` for underground belts. -/
def UBBelt.getNameAtStage (e : UBBelt) (stage : ℕ) : String :=
  nameAt e.baseName stage e.nameDiffs

/-- Key-sorted insertion of a name override. -/
def insertNameDiff (stage : ℕ) (n : String) : List (ℕ × String) → List (ℕ × String)
  | [] => [(stage, n)]
  | (cl, m) :: rest =>
    if cl = stage then (cl, n) :: rest
    else if stage < cl then (stage, n) :: (cl, m) :: rest
    else (cl, m) :: insertNameDiff stage n rest

/-- Modelled from the spec (ProjectEntity's `applyUpgradeAtStage` is not among
the provided sources): an upgrade records the new name at the given stage —
merged into the first value at the first stage, otherwise stored as a diff at
that stage (`applyDiffAtStage` semantics). -/
def UBBelt.applyUpgradeAtStage (e : UBBelt) (stage : ℕ) (n : String) : UBBelt :=
  if stage = e.firstStage then { e with baseName := n }
  else { e with nameDiffs := insertNameDiff stage n e.nameDiffs }

/-- Modelled from the spec (ProjectEntity's `setTypeProperty` is not among the
provided sources): sets the first value's underground side. -/
def UBBelt.setTypeProperty (e : UBBelt) (input : Bool) : UBBelt :=
  { e with baseInput := input }

/-- The observed rendered underground belt (`worldEntity`): its current
direction and side. -/
structure WorldUB where
  direction : ℕ
  input : Bool
  deriving DecidableEq

/-- Embeds `handleUndergroundFlippedBack`: the world entity was rotated back
to the stored direction but the stored pair may disagree. -/
def handleUndergroundFlippedBack (entity : UBBelt) (world : WorldUB) (stage : ℕ)
    (targetDirection : ℕ) (pair : Option UBBelt) :
    EntityUpdateResult × UBBelt × Option UBBelt × List WorldCmd :=
  match pair with
  | none =>
    (EntityUpdateResult.NoChange, entity, none,
      [WorldCmd.updateWorldEntities entity.id stage true])
  | some p =>
    if p.direction = targetDirection then
      (EntityUpdateResult.NoChange, entity, some p,
        updatePairCmds entity.id entity.firstStage p.id p.firstStage)
    else if stage = entity.firstStage ∨ p.firstStage = stage then
      let p' := UBBelt.setTypeProperty { p with direction := world.direction } (!world.input)
      (EntityUpdateResult.Updated, entity, some p',
        updatePairCmds entity.id entity.firstStage p'.id p'.firstStage)
    else
      (EntityUpdateResult.CannotRotate, entity, some p,
        [WorldCmd.forceFlipUndergroundOf entity.id])

/-- Embeds `doUndergroundBeltUpdate`.  The recomputation
`findUndergroundPair(content, entity, stage)` after the upgrades (the source
file `entity/underground-belt.ts` is not among the provided sources) is a
parameter receiving the post-upgrade states of both members: it returns the
id of the partner it finds, compared against the id of the pair found before
the edit. -/
def doUndergroundBeltUpdate (entity : UBBelt) (world : WorldUB) (pair : Option UBBelt)
    (stage : ℕ) (targetDirection : Option ℕ) (targetUpgrade : String)
    (findPair : UBBelt → Option UBBelt → Option ℕ) :
    EntityUpdateResult × UBBelt × Option UBBelt × List WorldCmd :=
  let rotated := match targetDirection with
    | none => false
    | some d => decide (d ≠ entity.direction)
  let oldName := entity.getNameAtStage stage
  let upgraded := decide (targetUpgrade ≠ oldName)
  if ¬(rotated || upgraded) then
    match targetDirection with
    | none => (EntityUpdateResult.NoChange, entity, pair, [])
    | some d => handleUndergroundFlippedBack entity world stage d pair
  else
    let isSelfOrPairFirstStage :=
      decide (stage = entity.firstStage) ||
        (match pair with
          | some p => decide (p.firstStage = stage)
          | none => false)
    if rotated && !isSelfOrPairFirstStage then
      (EntityUpdateResult.CannotRotate, entity, pair,
        [WorldCmd.resetUndergroundAt entity.id stage])
    else
      let entity1 :=
        if rotated then
          UBBelt.setTypeProperty { entity with direction := targetDirection.getD entity.direction } (!entity.baseInput)
        else entity
      let pair1 :=
        if rotated then
          pair.map fun p =>
            UBBelt.setTypeProperty { p with direction := targetDirection.getD p.direction } entity.baseInput
        else pair
      let applyStage := if isSelfOrPairFirstStage then entity.firstStage else stage
      let pairApplyStage :=
        match pair with
        | some p => if isSelfOrPairFirstStage then p.firstStage else stage
        | none => stage
      let upgradeStep :=
        if upgraded then
          let entity2 := entity1.applyUpgradeAtStage applyStage targetUpgrade
          let pair2 := pair1.map fun p => p.applyUpgradeAtStage pairApplyStage targetUpgrade
          let newPair := findPair entity2 pair2
          if newPair ≠ pair.map (fun p => p.id) then
            (true, entity2.applyUpgradeAtStage stage oldName,
              pair2.map fun p => p.applyUpgradeAtStage pairApplyStage oldName)
          else (false, entity2, pair2)
        else (false, entity1, pair1)
      let cannotUpgradeChangedPair := upgradeStep.1
      let entity3 := upgradeStep.2.1
      let pair3 := upgradeStep.2.2
      let cmds :=
        if cannotUpgradeChangedPair && !rotated then
          WorldCmd.refreshWorldEntityAtStage entity.id stage ::
            (match pair with
              | some p => [WorldCmd.refreshWorldEntityAtStage p.id stage]
              | none => [])
        else
          match pair3 with
          | none => [WorldCmd.updateWorldEntities entity.id applyStage true]
          | some p => updatePairCmds entity.id applyStage p.id pairApplyStage
      if cannotUpgradeChangedPair then
        (EntityUpdateResult.CannotUpgradeChangedPair, entity3, pair3, cmds)
      else (EntityUpdateResult.Updated, entity3, pair3, cmds)

/-- A non-underground project entity for `handleUpdate`: id, stored direction
(`nil` when north), and the staged value. -/
structure GenEntity (K V : Type) where
  id : ℕ
  direction : Option ℕ
  value : AssemblyEntity K V

/-- The entity's first stage (the staged value's base layer). -/
def GenEntity.firstStage (e : GenEntity K V) : ℕ := e.value.baseLayer

/-- The world observation consumed by `handleUpdate` for a non-underground
entity: the rendered instance's direction handling and type, the value
`saveEntity` reads back, and the loader/inserter fields used by the rotation
branch (the inserter positions are given relative to the entity, as the
source computes with `Pos.minus`). -/
structure GenObs (K V : Type) where
  canBeAnyDirection : Bool
  etype : String
  savedValue : Option (Snap K V)
  loaderType : V
  pickupPosition : V
  dropPosition : V

/-- Modelled from the spec (ProjectEntity's first-value setters
`setTypeProperty` / `setPickupPosition` / `setDropPosition` are not among the
provided sources): overwrite one property of the base value. -/
def setFirstValueProp (e : AssemblyEntity K V) [DecidableEq K] (k0 : K) (v : V) :
    AssemblyEntity K V :=
  { e with baseValue := fun k => if k = k0 then some v else e.baseValue k }

/-- Modelled from the spec (ProjectEntity's `adjustValueAtStage` is not among
the provided sources): compare the observed value with the stored value at the
stage; when different, record the diff at that stage; report whether anything
changed. -/
def adjustValueAtStage [DecidableEq K] [DecidableEq V] [Fintype K]
    (e : AssemblyEntity K V) (stage : ℕ) (newValue : Snap K V) :
    Bool × AssemblyEntity K V :=
  match e.getValueAtLayer stage with
  | none => (false, e)
  | some cur =>
    match getEntityDiff cur newValue with
    | none => (false, e)
    | some d => (true, e.applyDiffAtLayer stage d)

/-- Modelled from the spec (ProjectEntity's `applyUpgradeAtStage` for general
entities): record the upgraded name at the stage if it differs from the
current name there; report whether anything changed. -/
def genApplyUpgradeAtStage [DecidableEq K] [DecidableEq V] [Fintype K] (kName : K)
    (e : AssemblyEntity K V) (stage : ℕ) (name : V) : Bool × AssemblyEntity K V :=
  match e.getValueAtLayer stage with
  | none => (false, e)
  | some cur =>
    if cur kName = some name then (false, e)
    else
      (true, e.applyDiffAtLayer stage fun k =>
        if k = kName then some (DiffVal.setTo name) else none)

/-- The rotation mutations of `handleUpdate`'s allowed branch: set the new
direction; loaders also update their type from the world, inserters their
pickup and drop positions when present in the first value. -/
def applyRotation [DecidableEq K] (kType kPickup kDrop : K)
    (entity : GenEntity K V) (obs : GenObs K V) (targetDirection : Option ℕ) :
    GenEntity K V :=
  let e1 : GenEntity K V := { entity with direction := targetDirection }
  if obs.etype = ("loader") ∨ obs.etype = ("loader-1x1") then
    { e1 with value := setFirstValueProp e1.value kType obs.loaderType }
  else if obs.etype = ("inserter") then
    let e2 := if (e1.value.baseValue kPickup).isSome then
        { e1 with value := setFirstValueProp e1.value kPickup obs.pickupPosition }
      else e1
    if (e2.value.baseValue kDrop).isSome then
      { e2 with value := setFirstValueProp e2.value kDrop obs.dropPosition }
    else e2
  else e1

/-- The value pipeline of `handleUpdate`: apply the observed value when
requested; otherwise apply a pending upgrade (after `checkUpgradeType`, whose
failure is a fatal error modelled as `none`).  Returns whether a diff was
recorded and the updated staged value. -/
def handleUpdateValue [DecidableEq K] [DecidableEq V] [Fintype K] (kName : K)
    (value : AssemblyEntity K V) (obs : GenObs K V) (stage : ℕ)
    (targetUpgrade : Option V) (getBpValue : Bool) (knownBpValue : Option (Snap K V))
    (upgradeOk : Bool) : Option (Bool × AssemblyEntity K V) :=
  let afterVal :=
    if getBpValue then
      match (match knownBpValue with | some v => some v | none => obs.savedValue) with
      | none => (false, value)
      | some nv => adjustValueAtStage value stage nv
    else (false, value)
  if afterVal.1 then some (true, afterVal.2)
  else
    match targetUpgrade with
    | none => some (false, afterVal.2)
    | some u =>
      if upgradeOk then some (genApplyUpgradeAtStage kName afterVal.2 stage u)
      else none

/-- Embeds `handleUpdate` for non-underground entities: a requested rotation
is legal only at the entity's first stage (otherwise the rendered instance is
refreshed and `CannotRotate` returned with nothing stored); then the observed
value or pending upgrade is applied, and the world is updated from the event
stage when anything changed.  `upgradeOk` stands for `areUpgradeableTypes`;
its failure aborts (`none`, the source's hard `error`). -/
def handleUpdate [DecidableEq K] [DecidableEq V] [Fintype K]
    (kType kPickup kDrop kName : K)
    (entity : GenEntity K V) (obs : GenObs K V) (stage : ℕ)
    (targetDirection : Option ℕ) (targetUpgrade : Option V) (getBpValue : Bool)
    (knownBpValue : Option (Snap K V)) (upgradeOk : Bool) :
    Option (EntityUpdateResult × GenEntity K V × List WorldCmd) :=
  let rotated := targetDirection.isSome && decide (targetDirection ≠ entity.direction) &&
    !obs.canBeAnyDirection
  if rotated && decide (stage ≠ entity.firstStage) then
    some (EntityUpdateResult.CannotRotate, entity,
      [WorldCmd.refreshWorldEntityAtStage entity.id stage])
  else
    let entity1 := if rotated then applyRotation kType kPickup kDrop entity obs targetDirection
      else entity
    match handleUpdateValue kName entity1.value obs stage targetUpgrade getBpValue
        knownBpValue upgradeOk with
    | none => none
    | some (hasDiff, v2) =>
      if rotated || hasDiff then
        some (EntityUpdateResult.Updated, { entity1 with value := v2 },
          [WorldCmd.updateWorldEntities entity.id stage true])
      else some (EntityUpdateResult.NoChange, { entity1 with value := v2 }, [])

/-! ### C3: rotation legality -/

/-- Upgrades never touch the stored direction. -/
lemma applyUpgradeAtStage_direction (e : UBBelt) (s : ℕ) (n : String) :
    (e.applyUpgradeAtStage s n).direction = e.direction := by
  unfold UBBelt.applyUpgradeAtStage
  split <;> rfl

/-- A rotation request at a stage that is neither the entity's nor the pair's
first stage is rejected wholesale by `handleUndergroundFlippedBack`. -/
lemma flippedBack_preserve (entity : UBBelt) (world : WorldUB) (stage : ℕ) (d : ℕ)
    (pair : Option UBBelt) (hstage : stage ≠ entity.firstStage)
    (hpair : ∀ p, pair = some p → p.firstStage ≠ stage) :
    (handleUndergroundFlippedBack entity world stage d pair).2.1 = entity ∧
      (handleUndergroundFlippedBack entity world stage d pair).2.2.1 = pair := by
  cases pair with
  | none => exact ⟨rfl, rfl⟩
  | some p =>
    have hp := hpair p rfl
    unfold handleUndergroundFlippedBack
    dsimp only
    by_cases hpd : p.direction = d
    · rw [if_pos hpd]
      exact ⟨rfl, rfl⟩
    · rw [if_neg hpd, if_neg (by push_neg; exact ⟨hstage, hp⟩)]
      exact ⟨rfl, rfl⟩

/-- `handleUpdate` rejects a rotation observed away from the first stage:
`CannotRotate`, a refresh of the rendered instance, the stored entity
untouched. -/
lemma genRotateIllegal {K V : Type} [DecidableEq K] [DecidableEq V] [Fintype K]
    (kT kP kD kN : K) (entity : GenEntity K V) (obs : GenObs K V) (stage : ℕ) (d : ℕ)
    (tU : Option V) (gBp : Bool) (kBp : Option (Snap K V)) (uOk : Bool)
    (hany : obs.canBeAnyDirection = false) (hd : some d ≠ entity.direction)
    (hstage : stage ≠ entity.firstStage) :
    handleUpdate kT kP kD kN entity obs stage (some d) tU gBp kBp uOk =
      some (EntityUpdateResult.CannotRotate, entity,
        [WorldCmd.refreshWorldEntityAtStage entity.id stage]) := by
  simp [handleUpdate, hany, hd, hstage]

/-- Away from the first stage, no path of `handleUpdate` changes the stored
direction. -/
lemma genDirectionPreserved {K V : Type} [DecidableEq K] [DecidableEq V] [Fintype K]
    (kT kP kD kN : K) (entity : GenEntity K V) (obs : GenObs K V) (stage : ℕ)
    (tD : Option ℕ) (tU : Option V) (gBp : Bool) (kBp : Option (Snap K V)) (uOk : Bool)
    (res : EntityUpdateResult × GenEntity K V × List WorldCmd)
    (hstage : stage ≠ entity.firstStage)
    (h : handleUpdate kT kP kD kN entity obs stage tD tU gBp kBp uOk = some res) :
    res.2.1.direction = entity.direction := by
  simp only [handleUpdate] at h
  by_cases hrot :
      (tD.isSome && decide (tD ≠ entity.direction) && !obs.canBeAnyDirection) = true
  · rw [if_pos (by rw [hrot]; simp [hstage])] at h
    injection h with h
    rw [← h]
  · rw [Bool.not_eq_true] at hrot
    rw [hrot] at h
    simp only [Bool.false_and, Bool.false_eq_true, if_false, Bool.false_or] at h
    cases hv : handleUpdateValue kN entity.value obs stage tU gBp kBp uOk with
    | none => rw [hv] at h; cases h
    | some val =>
      obtain ⟨hasDiff, v2⟩ := val
      rw [hv] at h
      cases hasDiff with
      | true =>
        simp only [if_true] at h
        injection h with h
        rw [← h]
      | false =>
        simp only [Bool.false_eq_true, if_false] at h
        injection h with h
        rw [← h]

/-- `doUndergroundBeltUpdate` rejects a rotation at a stage that is neither
member's first stage: `CannotRotate`, a reset of the rendered instance, both
stored members untouched. -/
lemma ubRotateIllegal (entity : UBBelt) (world : WorldUB) (pair : Option UBBelt)
    (stage : ℕ) (d : ℕ) (tU : String) (findPair : UBBelt → Option UBBelt → Option ℕ)
    (hd : d ≠ entity.direction) (hstage : stage ≠ entity.firstStage)
    (hpair : ∀ p, pair = some p → p.firstStage ≠ stage) :
    doUndergroundBeltUpdate entity world pair stage (some d) tU findPair =
      (EntityUpdateResult.CannotRotate, entity, pair,
        [WorldCmd.resetUndergroundAt entity.id stage]) := by
  cases pair with
  | none => simp [doUndergroundBeltUpdate, hd, hstage]
  | some p => simp [doUndergroundBeltUpdate, hd, hstage, hpair p rfl]

/-- Away from both members' first stages, no path of `doUndergroundBeltUpdate`
changes either stored direction. -/
lemma ubDirectionPreserved (entity : UBBelt) (world : WorldUB) (pair : Option UBBelt)
    (stage : ℕ) (tD : Option ℕ) (tU : String)
    (findPair : UBBelt → Option UBBelt → Option ℕ)
    (hstage : stage ≠ entity.firstStage)
    (hpair : ∀ p, pair = some p → p.firstStage ≠ stage) :
    (doUndergroundBeltUpdate entity world pair stage tD tU findPair).2.1.direction
        = entity.direction ∧
      Option.map UBBelt.direction
          (doUndergroundBeltUpdate entity world pair stage tD tU findPair).2.2.1
        = Option.map UBBelt.direction pair := by
  have hrot : ∀ d : ℕ, d ≠ entity.direction →
      doUndergroundBeltUpdate entity world pair stage (some d) tU findPair =
        (EntityUpdateResult.CannotRotate, entity, pair,
          [WorldCmd.resetUndergroundAt entity.id stage]) :=
    fun d hd => ubRotateIllegal entity world pair stage d tU findPair hd hstage hpair
  cases pair with
  | none =>
    cases tD with
    | none =>
      by_cases hu : tU = entity.getNameAtStage stage
      · simp [doUndergroundBeltUpdate, hu]
      · by_cases hfp : findPair (entity.applyUpgradeAtStage stage tU) none = none
        · simp [doUndergroundBeltUpdate, hu, hstage, hfp, applyUpgradeAtStage_direction]
        · simp [doUndergroundBeltUpdate, hu, hstage, hfp, applyUpgradeAtStage_direction]
    | some d =>
      by_cases hd : d = entity.direction
      · subst hd
        by_cases hu : tU = entity.getNameAtStage stage
        · simp [doUndergroundBeltUpdate, hu, handleUndergroundFlippedBack]
        · by_cases hfp : findPair (entity.applyUpgradeAtStage stage tU) none = none
          · simp [doUndergroundBeltUpdate, hu, hstage, hfp, applyUpgradeAtStage_direction]
          · simp [doUndergroundBeltUpdate, hu, hstage, hfp, applyUpgradeAtStage_direction]
      · rw [hrot d hd]
        exact ⟨rfl, rfl⟩
  | some p =>
    have hp := hpair p rfl
    cases tD with
    | none =>
      by_cases hu : tU = entity.getNameAtStage stage
      · simp [doUndergroundBeltUpdate, hu]
      · by_cases hfp : findPair (entity.applyUpgradeAtStage stage tU)
            (some (p.applyUpgradeAtStage stage tU)) = some p.id
        · simp [doUndergroundBeltUpdate, hu, hstage, hp, hfp,
            applyUpgradeAtStage_direction]
        · simp [doUndergroundBeltUpdate, hu, hstage, hp, hfp,
            applyUpgradeAtStage_direction]
    | some d =>
      by_cases hd : d = entity.direction
      · subst hd
        have hfb := flippedBack_preserve entity world stage entity.direction (some p)
          hstage hpair
        by_cases hu : tU = entity.getNameAtStage stage
        · simp [doUndergroundBeltUpdate, hu, hfb.1, hfb.2]
        · by_cases hfp : findPair (entity.applyUpgradeAtStage stage tU)
              (some (p.applyUpgradeAtStage stage tU)) = some p.id
          · simp [doUndergroundBeltUpdate, hu, hstage, hp, hfp,
              applyUpgradeAtStage_direction]
          · simp [doUndergroundBeltUpdate, hu, hstage, hp, hfp,
              applyUpgradeAtStage_direction]
      · rw [hrot d hd]
        exact ⟨rfl, rfl⟩

/-- C3: a rotation observed at a stage other than the entity's first stage
(for an underground pair, other than either member's first stage) is rejected
with `CannotRotate`, the rendered instance is reverted (a refresh for general
entities, a reset for undergrounds), and the stored entity — and pair — are
returned untouched; moreover no path of the update at such a stage changes any
stored direction. -/
theorem c3_rotation_legality {K V : Type} [DecidableEq K] [DecidableEq V] [Fintype K]
    (kT kP kD kN : K) :
    (∀ (entity : GenEntity K V) (obs : GenObs K V) (stage d : ℕ) (tU : Option V)
        (gBp : Bool) (kBp : Option (Snap K V)) (uOk : Bool),
      obs.canBeAnyDirection = false → some d ≠ entity.direction →
      stage ≠ entity.firstStage →
      handleUpdate kT kP kD kN entity obs stage (some d) tU gBp kBp uOk =
        some (EntityUpdateResult.CannotRotate, entity,
          [WorldCmd.refreshWorldEntityAtStage entity.id stage])) ∧
    (∀ (entity : GenEntity K V) (obs : GenObs K V) (stage : ℕ) (tD : Option ℕ)
        (tU : Option V) (gBp : Bool) (kBp : Option (Snap K V)) (uOk : Bool)
        (res : EntityUpdateResult × GenEntity K V × List WorldCmd),
      stage ≠ entity.firstStage →
      handleUpdate kT kP kD kN entity obs stage tD tU gBp kBp uOk = some res →
      res.2.1.direction = entity.direction) ∧
    (∀ (entity : UBBelt) (world : WorldUB) (pair : Option UBBelt) (stage d : ℕ)
        (tU : String) (findPair : UBBelt → Option UBBelt → Option ℕ),
      d ≠ entity.direction → stage ≠ entity.firstStage →
      (∀ p, pair = some p → p.firstStage ≠ stage) →
      doUndergroundBeltUpdate entity world pair stage (some d) tU findPair =
        (EntityUpdateResult.CannotRotate, entity, pair,
          [WorldCmd.resetUndergroundAt entity.id stage])) ∧
    (∀ (entity : UBBelt) (world : WorldUB) (pair : Option UBBelt) (stage : ℕ)
        (tD : Option ℕ) (tU : String) (findPair : UBBelt → Option UBBelt → Option ℕ),
      stage ≠ entity.firstStage → (∀ p, pair = some p → p.firstStage ≠ stage) →
      (doUndergroundBeltUpdate entity world pair stage tD tU findPair).2.1.direction
          = entity.direction ∧
        Option.map UBBelt.direction
            (doUndergroundBeltUpdate entity world pair stage tD tU findPair).2.2.1
          = Option.map UBBelt.direction pair) :=
  ⟨fun entity obs stage d tU gBp kBp uOk h1 h2 h3 =>
      genRotateIllegal kT kP kD kN entity obs stage d tU gBp kBp uOk h1 h2 h3,
    fun entity obs stage tD tU gBp kBp uOk res h1 h2 =>
      genDirectionPreserved kT kP kD kN entity obs stage tD tU gBp kBp uOk res h1 h2,
    fun entity world pair stage d tU findPair h1 h2 h3 =>
      ubRotateIllegal entity world pair stage d tU findPair h1 h2 h3,
    fun entity world pair stage tD tU findPair h1 h2 =>
      ubDirectionPreserved entity world pair stage tD tU findPair h1 h2⟩

/-- A concrete general entity for the C3 witness. -/
def c3Gen : GenEntity Bool ℕ :=
  { id := 7, direction := some 0,
    value := { baseLayer := 1, baseValue := fun _ => some 0, layerChanges := [] } }

/-- A concrete world observation for the C3 witness. -/
def c3Obs : GenObs Bool ℕ :=
  { canBeAnyDirection := false, etype := ("inserter"), savedValue := none,
    loaderType := 0, pickupPosition := 0, dropPosition := 0 }

/-- A concrete underground belt for the C3 witness. -/
def c3UBe : UBBelt :=
  { id := 1, direction := 0, firstStage := 1, baseName := ("underground-belt"),
    baseInput := true, nameDiffs := [] }

/-- Its pair, first stage 2, for the C3 witness. -/
def c3UBp : UBBelt :=
  { id := 2, direction := 0, firstStage := 2, baseName := ("underground-belt"),
    baseInput := false, nameDiffs := [] }

/-- The rendered underground instance for the C3 witness. -/
def c3WorldUB : WorldUB := { direction := 0, input := true }

/-- Witness for C3 at stage 3 (first stages are 1 and 2): a rotation to
direction 2 is rejected on both the generic and the underground path with the
stores untouched, and directions are preserved. -/
theorem c3_rotation_legality_witness :
    handleUpdate true true true true c3Gen c3Obs 3 (some 2) none false none true =
      some (EntityUpdateResult.CannotRotate, c3Gen,
        [WorldCmd.refreshWorldEntityAtStage 7 3]) ∧
    doUndergroundBeltUpdate c3UBe c3WorldUB (some c3UBp) 3 (some 2)
        ("underground-belt") (fun _ _ => none) =
      (EntityUpdateResult.CannotRotate, c3UBe, some c3UBp,
        [WorldCmd.resetUndergroundAt 1 3]) ∧
    (doUndergroundBeltUpdate c3UBe c3WorldUB (some c3UBp) 3 none
        ("fast-underground-belt") (fun _ _ => none)).2.1.direction = c3UBe.direction :=
  ⟨(c3_rotation_legality true true true true).1 c3Gen c3Obs 3 2 none false none true
      rfl (by decide) (by decide),
    (c3_rotation_legality (K := Bool) (V := ℕ) true true true true).2.2.1 c3UBe
      c3WorldUB (some c3UBp) 3 2 ("underground-belt") (fun _ _ => none) (by decide)
      (by decide) (fun p hp => by injection hp with h; subst h; decide),
    ((c3_rotation_legality (K := Bool) (V := ℕ) true true true true).2.2.2 c3UBe
        c3WorldUB (some c3UBp) 3 none ("fast-underground-belt") (fun _ _ => none)
        (by decide) (fun p hp => by injection hp with h; subst h; decide)).1⟩

/-! ### C4: the failing rollback input -/

/-- The lower member of an underground pair, first stage 1. -/
def c4Entity : UBBelt :=
  { id := 1, direction := 4, firstStage := 1, baseName := ("underground-belt"),
    baseInput := true, nameDiffs := [] }

/-- The paired member, first stage 2. -/
def c4Pair : UBBelt :=
  { id := 2, direction := 4, firstStage := 2, baseName := ("underground-belt"),
    baseInput := false, nameDiffs := [] }

/-- The rendered instance of the entity at the event stage. -/
def c4World : WorldUB := { direction := 4, input := true }

/-- An upgrade of the pair observed at stage 2 (the pair's first stage, not
the entity's) whose post-edit pair recomputation finds no partner. -/
def c4Result : EntityUpdateResult × UBBelt × Option UBBelt × List WorldCmd :=
  doUndergroundBeltUpdate c4Entity c4World (some c4Pair) 2 none
    ("fast-underground-belt") (fun _ _ => none)

/-- C4: when an upgrade at the pair's first stage (stage 2, with the entity's
first stage 1) detects a changed pair, the operation returns
`CannotUpgradeChangedPair` and rolls the pair back, but the entity is rolled
back at the event stage rather than at the stage where the upgrade was applied
(its own first stage), so its stored value at stage 1 remains upgraded — the
members are not both restored to their pre-edit values as the claim and §5 of
the spec ("failing paths must restore pre-call state exactly") require. -/
theorem c4_rollback_divergence :
    c4Result.1 = EntityUpdateResult.CannotUpgradeChangedPair ∧
    c4Result.2.2.1 = some c4Pair ∧
    c4Result.2.1.getNameAtStage 1 = ("fast-underground-belt") ∧
    c4Entity.getNameAtStage 1 = ("underground-belt") ∧
    c4Result.2.1 ≠ c4Entity := by
  decide

/-! ### C7: stage-range moves (`trySetFirstStage`) -/

/-- Modelled from the spec's direction table (the Factorio `util` helper is
not among the provided sources): the opposite of one of the eight directions. -/
def oppositedirection (d : ℕ) : ℕ := (d + 4) % 8

/-- Modelled from the spec (the `underground-belt` entity module is not among
the provided sources): the transport direction of an underground belt — the
stored direction for an input side, its opposite for an output side
(`isInput = some false`). -/
def getUndergroundDirection (direction : ℕ) (isInput : Option Bool) : ℕ :=
  if isInput = some false then oppositedirection direction else direction

/-- The identification record `findCompatibleWithLuaEntity` consumes: name,
prototype type, position, direction, and the underground side when the entity
is an underground belt. -/
structure EntityIdentification where
  name : String
  etype : String
  position : ℤ × ℤ
  direction : ℕ
  beltToGroundType : Option Bool
  deriving DecidableEq

/-- Embeds `findCompatibleWithLuaEntity` for a plain identification record (as
passed by `findCompatibleWithExistingEntity`; the rolling-stock branch's
registry lookup requires `object_name == "LuaEntity"`, which a plain record
never satisfies, so that branch returns `nil`). -/
def findCompatibleWithLuaEntity (pi : ProtoInfo)
    (byPosition : ℤ × ℤ → List ContentEntity) (entity : EntityIdentification)
    (previousDirection : Option ℕ) (stage : ℕ) : Option ContentEntity :=
  if entity.etype = ("underground-belt") then
    match findCompatibleByProps pi byPosition entity.etype entity.position none stage with
    | none => none
    | some found =>
      if getUndergroundDirection found.getDirection found.ubType =
          getUndergroundDirection entity.direction entity.beltToGroundType then
        some found
      else none
  else if pi.rollingStockType entity.etype then none
  else
    match pi.pasteRotatableType entity.name with
    | none =>
      findCompatibleByProps pi byPosition entity.name entity.position
        (some (previousDirection.getD entity.direction)) stage
    | some PasteRotType.anyDirection =>
      findCompatibleByProps pi byPosition entity.name entity.position none stage
    | some PasteRotType.flippable =>
      let direction := previousDirection.getD entity.direction
      if direction % 2 = 1 then
        findCompatibleByProps pi byPosition entity.name entity.position
          (some direction) stage
      else
        match findCompatibleByProps pi byPosition entity.name entity.position
            (some direction) stage with
        | some r => some r
        | none =>
          findCompatibleByProps pi byPosition entity.name entity.position
            (some (oppositedirection direction)) stage

/-- Embeds `findCompatibleWithExistingEntity`: identify by the stored first
value's name, its prototype type, position and direction. -/
def findCompatibleWithExistingEntity (pi : ProtoInfo)
    (byPosition : ℤ × ℤ → List ContentEntity) (entity : ContentEntity) (stage : ℕ) :
    Option ContentEntity :=
  findCompatibleWithLuaEntity pi byPosition
    { name := entity.name,
      etype := ((pi.nameToType entity.name).getD ("unknown")),
      position := entity.pos,
      direction := entity.getDirection,
      beltToGroundType := entity.ubType }
    none stage

/-- Embeds `firstStageChangeWillIntersect` (which, despite its name, returns
whether the move is allowed): moving up is always allowed; moving down is
allowed when the bucket scan at the target stage finds nothing or finds the
entity itself (object identity modelled by id). -/
def firstStageChangeWillIntersect (pi : ProtoInfo)
    (byPosition : ℤ × ℤ → List ContentEntity) (entity : ContentEntity)
    (newStage : ℕ) : Bool :=
  if entity.firstStage ≤ newStage then true
  else
    match findCompatibleWithExistingEntity pi byPosition entity newStage with
    | none => true
    | some found => decide (found.id = entity.id)

/-- Embeds `checkCanSetFirstStage`. -/
def checkCanSetFirstStage (pi : ProtoInfo) (byPosition : ℤ × ℤ → List ContentEntity)
    (entity : ContentEntity) (stage : ℕ) : StageMoveResult :=
  if entity.isSettingsRemnant || decide (entity.firstStage = stage) then
    StageMoveResult.NoChange
  else if entity.lastStage.isSome && decide (entity.lastStage.getD 0 < stage) then
    StageMoveResult.CannotMovePastLastStage
  else if !firstStageChangeWillIntersect pi byPosition entity stage then
    StageMoveResult.IntersectsAnotherEntity
  else StageMoveResult.Updated

/-- Modelled from the spec (ProjectEntity's `setFirstStageUnchecked` is not
among the provided sources): commit the new first stage. -/
def setFirstStageUnchecked (entity : ContentEntity) (stage : ℕ) : ContentEntity :=
  { entity with firstStage := stage }

/-- Embeds `trySetFirstStage`: validate, and on success commit the new first
stage and resynchronize from the smaller of the old and new first stages. -/
def trySetFirstStage (pi : ProtoInfo) (byPosition : ℤ × ℤ → List ContentEntity)
    (entity : ContentEntity) (stage : ℕ) :
    StageMoveResult × ContentEntity × List WorldCmd :=
  let result := checkCanSetFirstStage pi byPosition entity stage
  if result = StageMoveResult.Updated then
    (result, setFirstStageUnchecked entity stage,
      [WorldCmd.updateWorldEntities entity.id (min entity.firstStage stage) true])
  else (result, entity, [])

/-- On the plain resolver branch, a strictly-earliest compatible candidate in
the bucket is exactly what `findCompatibleWithExistingEntity` returns. -/
lemma findExisting_eq_of_min (pi : ProtoInfo)
    (byPosition : ℤ × ℤ → List ContentEntity) (entity other : ContentEntity)
    (stage : ℕ)
    (hub : (pi.nameToType entity.name).getD ("unknown") ≠ ("underground-belt"))
    (hrs : pi.rollingStockType ((pi.nameToType entity.name).getD ("unknown")) = false)
    (hpr : pi.pasteRotatableType entity.name = none)
    (hmem : other ∈ byPosition entity.pos)
    (hok : CandidateOK pi entity.name (some entity.getDirection) stage other)
    (hmin : ∀ x ∈ byPosition entity.pos,
      CandidateOK pi entity.name (some entity.getDirection) stage x → x ≠ other →
        other.firstStage < x.firstStage) :
    findCompatibleWithExistingEntity pi byPosition entity stage = some other := by
  have hscan : findCompatibleLoop pi entity.name (some entity.getDirection) stage none
      (byPosition entity.pos) = some other := by
    cases hc : findCompatibleLoop pi entity.name (some entity.getDirection) stage none
        (byPosition entity.pos) with
    | none =>
      have hall := (findCompatibleLoop_from_none pi entity.name
        (some entity.getDirection) stage (byPosition entity.pos)).1.mp hc
      have hfalse := hall other hmem
      rw [← Bool.not_eq_true, matchesProps_iff] at hfalse
      exact absurd hok hfalse
    | some c =>
      obtain ⟨hcmem, hcM⟩ := (findCompatibleLoop_from_none pi entity.name
        (some entity.getDirection) stage (byPosition entity.pos)).2 c hc
      have hle : c.firstStage ≤ other.firstStage :=
        findCompatibleLoop_min pi entity.name (some entity.getDirection) stage
          (byPosition entity.pos) none c other hmem
          ((matchesProps_iff _ _ _ _ _).mpr hok) hc
      by_cases hco : c = other
      · rw [hco]
      · exact absurd hle (not_le.mpr
          (hmin c hcmem ((matchesProps_iff _ _ _ _ _).mp hcM) hco))
  unfold findCompatibleWithExistingEntity findCompatibleWithLuaEntity
  dsimp only
  rw [if_neg hub, if_neg (by simp [hrs]), hpr]
  exact hscan

/-- C7 (amended): for a non-remnant entity whose first stage differs from the
target, `trySetFirstStage` returns `CannotMovePastLastStage` and mutates
nothing when the target exceeds `lastStage`; returns `IntersectsAnotherEntity`
and mutates nothing when moving down and the strictly-earliest compatible
candidate in the bucket is a different entity; and on success (moving up
within the stage span, or moving down when the scan finds nothing or only the
entity itself) commits the new first stage and resynchronizes from the
minimum of the old and new first stages. -/
theorem c7_trySetFirstStage_spec (pi : ProtoInfo)
    (byPosition : ℤ × ℤ → List ContentEntity) (entity : ContentEntity) (stage : ℕ)
    (hrem : entity.isSettingsRemnant = false) (hne : entity.firstStage ≠ stage) :
    (∀ ls, entity.lastStage = some ls → ls < stage →
      trySetFirstStage pi byPosition entity stage =
        (StageMoveResult.CannotMovePastLastStage, entity, [])) ∧
    (∀ other : ContentEntity,
      stage < entity.firstStage →
      (∀ ls, entity.lastStage = some ls → stage ≤ ls) →
      (pi.nameToType entity.name).getD ("unknown") ≠ ("underground-belt") →
      pi.rollingStockType ((pi.nameToType entity.name).getD ("unknown")) = false →
      pi.pasteRotatableType entity.name = none →
      other ∈ byPosition entity.pos →
      CandidateOK pi entity.name (some entity.getDirection) stage other →
      other.id ≠ entity.id →
      (∀ x ∈ byPosition entity.pos,
        CandidateOK pi entity.name (some entity.getDirection) stage x → x ≠ other →
          other.firstStage < x.firstStage) →
      trySetFirstStage pi byPosition entity stage =
        (StageMoveResult.IntersectsAnotherEntity, entity, [])) ∧
    (entity.firstStage < stage →
      (∀ ls, entity.lastStage = some ls → stage ≤ ls) →
      trySetFirstStage pi byPosition entity stage =
        (StageMoveResult.Updated, setFirstStageUnchecked entity stage,
          [WorldCmd.updateWorldEntities entity.id entity.firstStage true])) ∧
    (stage < entity.firstStage →
      (∀ ls, entity.lastStage = some ls → stage ≤ ls) →
      (∀ c, findCompatibleWithExistingEntity pi byPosition entity stage = some c →
        c.id = entity.id) →
      trySetFirstStage pi byPosition entity stage =
        (StageMoveResult.Updated, setFirstStageUnchecked entity stage,
          [WorldCmd.updateWorldEntities entity.id stage true])) := by
  have hnot : (entity.isSettingsRemnant || decide (entity.firstStage = stage)) = false := by
    simp [hrem, hne]
  refine ⟨?_, ?_, ?_, ?_⟩
  · intro ls hls hlt
    have hpast : (entity.lastStage.isSome && decide (entity.lastStage.getD 0 < stage))
        = true := by
      simp [hls, hlt]
    simp [trySetFirstStage, checkCanSetFirstStage, hnot, hpast]
  · intro other hdown hlsle hub hrs hpr hmem hok hid hmin
    have hfind := findExisting_eq_of_min pi byPosition entity other stage hub hrs hpr
      hmem hok hmin
    have hpast : (entity.lastStage.isSome && decide (entity.lastStage.getD 0 < stage))
        = false := by
      cases hlsv : entity.lastStage with
      | none => rfl
      | some ls =>
        have := not_lt.mpr (hlsle ls hlsv)
        simp [this]
    have hwill : firstStageChangeWillIntersect pi byPosition entity stage = false := by
      have hnle : ¬entity.firstStage ≤ stage := not_le.mpr hdown
      simp [firstStageChangeWillIntersect, hnle, hfind, hid]
    simp [trySetFirstStage, checkCanSetFirstStage, hnot, hpast, hwill]
  · intro hup hlsle
    have hpast : (entity.lastStage.isSome && decide (entity.lastStage.getD 0 < stage))
        = false := by
      cases hlsv : entity.lastStage with
      | none => rfl
      | some ls =>
        have := not_lt.mpr (hlsle ls hlsv)
        simp [this]
    have hwill : firstStageChangeWillIntersect pi byPosition entity stage = true := by
      simp [firstStageChangeWillIntersect, le_of_lt hup]
    have hmin : min entity.firstStage stage = entity.firstStage :=
      min_eq_left (le_of_lt hup)
    simp [trySetFirstStage, checkCanSetFirstStage, hnot, hpast, hwill, hmin]
  · intro hdown hlsle hself
    have hpast : (entity.lastStage.isSome && decide (entity.lastStage.getD 0 < stage))
        = false := by
      cases hlsv : entity.lastStage with
      | none => rfl
      | some ls =>
        have := not_lt.mpr (hlsle ls hlsv)
        simp [this]
    have hwill : firstStageChangeWillIntersect pi byPosition entity stage = true := by
      have hnle : ¬entity.firstStage ≤ stage := not_le.mpr hdown
      unfold firstStageChangeWillIntersect
      rw [if_neg hnle]
      cases hc : findCompatibleWithExistingEntity pi byPosition entity stage with
      | none => rfl
      | some c => simp [hself c hc]
    have hmin : min entity.firstStage stage = stage := min_eq_right (le_of_lt hdown)
    simp [trySetFirstStage, checkCanSetFirstStage, hnot, hpast, hwill, hmin]

/-- A live entity at stages 4–6 for the C7 witness. -/
def c7Entity : ContentEntity :=
  { id := 1, name := ("transport-belt"), direction := none, firstStage := 4,
    lastStage := some 6, pos := (0, 0), ubType := none, isSettingsRemnant := false }

/-- An earlier compatible entity at the same position. -/
def c7Other : ContentEntity :=
  { c7Entity with id := 2, firstStage := 2, lastStage := none }

/-- A bucket holding both. -/
def c7Bucket : ℤ × ℤ → List ContentEntity := fun _ => [c7Entity, c7Other]

/-- A bucket holding only the moving entity. -/
def c7BucketSelf : ℤ × ℤ → List ContentEntity := fun _ => [c7Entity]

/-- Witness for C7: moving past the last stage (4→7 with last stage 6) is
rejected; moving down onto an earlier compatible entity (4→3 over stages
2–∞) is rejected without mutation; moving up (4→5) and moving down with only
the entity itself at the position (4→3) succeed with resynchronization from
the smaller first stage. -/
theorem c7_trySetFirstStage_spec_witness :
    trySetFirstStage trivialProto c7Bucket c7Entity 7 =
      (StageMoveResult.CannotMovePastLastStage, c7Entity, []) ∧
    trySetFirstStage trivialProto c7Bucket c7Entity 3 =
      (StageMoveResult.IntersectsAnotherEntity, c7Entity, []) ∧
    trySetFirstStage trivialProto c7Bucket c7Entity 5 =
      (StageMoveResult.Updated, setFirstStageUnchecked c7Entity 5,
        [WorldCmd.updateWorldEntities 1 4 true]) ∧
    trySetFirstStage trivialProto c7BucketSelf c7Entity 3 =
      (StageMoveResult.Updated, setFirstStageUnchecked c7Entity 3,
        [WorldCmd.updateWorldEntities 1 3 true]) :=
  ⟨(c7_trySetFirstStage_spec trivialProto c7Bucket c7Entity 7 rfl (by decide)).1 6 rfl
      (by decide),
    (c7_trySetFirstStage_spec trivialProto c7Bucket c7Entity 3 rfl (by decide)).2.1
      c7Other (by decide) (fun ls hls => by injection hls with h; omega) (by decide)
      rfl rfl (by decide)
      ⟨Or.inl rfl, Or.inl rfl, fun d hd => by injection hd with h; exact h.symm⟩
      (by decide)
      (fun x hx hOK hxo => by
        rcases List.mem_cons.mp hx with rfl | hx'
        · decide
        · rcases List.mem_cons.mp hx' with rfl | hx''
          · exact absurd rfl hxo
          · exact absurd hx'' (List.not_mem_nil x)),
    (c7_trySetFirstStage_spec trivialProto c7Bucket c7Entity 5 rfl (by decide)).2.2.1
      (by decide) (fun ls hls => by injection hls with h; omega),
    (c7_trySetFirstStage_spec trivialProto c7BucketSelf c7Entity 3 rfl (by decide)).2.2.2
      (by decide) (fun ls hls => by injection hls with h; omega)
      (fun c hc => by
        have he : findCompatibleWithExistingEntity trivialProto c7BucketSelf c7Entity 3 =
            some c7Entity := by decide
        rw [he] at hc
        injection hc with h
        rw [← h])⟩

/-- A settings remnant whose stage span ended at stage 2. -/
def c7Remnant : ContentEntity :=
  { id := 3, name := ("transport-belt"), direction := none, firstStage := 1,
    lastStage := some 2, pos := (0, 0), ubType := none, isSettingsRemnant := true }

/-- C7 counterexample: for a settings remnant the remnant guard fires first,
so a target stage past the last stage (5 > 2) yields `NoChange`, not the
`CannotMovePastLastStage` the claim requires for every entity. -/
theorem c7_counterexample :
    c7Remnant.lastStage = some 2 ∧ (2 : ℕ) < 5 ∧
    trySetFirstStage trivialProto (fun _ => [c7Remnant]) c7Remnant 5 =
      (StageMoveResult.NoChange, c7Remnant, []) := by
  decide

/-! ### C9: settings remnants (`deleteEntityOrCreateSettingsRemnant`) -/

/-- A project entity as seen by the deletion path: its id in the content store
and its staged value. -/
structure ProjEntity (K V : Type) where
  id : ℕ
  value : AssemblyEntity K V

/-- Embeds `hasStageDiff` (`hasLayerChanges` in the code): `next` on the
stage-diff table finds a key exactly when the table is nonempty. -/
def ProjEntity.hasStageDiff (e : ProjEntity K V) : Bool :=
  !e.value.layerChanges.isEmpty

/-- The entity's first stage (its staged value's base layer). -/
def ProjEntity.firstStage (e : ProjEntity K V) : ℕ := e.value.baseLayer

/-- Embeds `shouldMakeSettingsRemnant`: true when the entity has a stage diff,
or when some circuit-connected partner has no rendered world instance
(`getWorldEntity` is `nil`, given here as `world partner stage = false`) at
this entity's first stage. -/
def shouldMakeSettingsRemnant (st : AssemblyContent) (world : ℕ → ℕ → Bool)
    (e : ProjEntity K V) : Bool :=
  if e.hasStageDiff then true
  else
    match st.circuitConnections.lookup e.id with
    | none => false
    | some m => decide (∃ other ∈ m.keys, world other e.firstStage = false)

/-- Embeds `deleteEntityOrCreateSettingsRemnant`: either mark the entity as a
settings remnant (the store untouched) and convert its rendered instances to
remnants, or delete it from the store and delete its rendered instances.  The
returned flag is the `isSettingsRemnant` mark. -/
def deleteEntityOrCreateSettingsRemnant (st : AssemblyContent) (world : ℕ → ℕ → Bool)
    (e : ProjEntity K V) : Bool × AssemblyContent × List WorldCmd :=
  if shouldMakeSettingsRemnant st world e then
    (true, st, [WorldCmd.makeSettingsRemnantOf e.id])
  else
    (false, contentDelete st e.id, [WorldCmd.deleteWorldEntitiesOf e.id])

/-- Deleting a present entity removes it from the entity set. -/
lemma contentDelete_not_mem (st : AssemblyContent) (e : ℕ) (he : e ∈ st.entities) :
    e ∉ (contentDelete st e).entities := by
  unfold contentDelete
  rw [if_neg (by simp [he])]
  exact Finset.not_mem_erase e st.entities

/-- C9: the entity is marked as a settings remnant exactly when it has a stage
diff, or it has a circuit connection to a partner with no rendered instance at
the entity's first stage; in that case the store is untouched (the entity is
retained) and the rendered instances become remnants, and in every other case
the entity is removed from the store and its rendered instances are deleted. -/
theorem c9_settings_remnant_iff {K V : Type} (st : AssemblyContent)
    (world : ℕ → ℕ → Bool) (e : ProjEntity K V) (he : e.id ∈ st.entities) :
    ((deleteEntityOrCreateSettingsRemnant st world e).1 = true ↔
      e.hasStageDiff = true ∨
        ∃ m, st.circuitConnections.lookup e.id = some m ∧
          ∃ other ∈ m.keys, world other e.firstStage = false) ∧
    ((deleteEntityOrCreateSettingsRemnant st world e).1 = true →
      (deleteEntityOrCreateSettingsRemnant st world e).2.1 = st ∧
        e.id ∈ (deleteEntityOrCreateSettingsRemnant st world e).2.1.entities ∧
        (deleteEntityOrCreateSettingsRemnant st world e).2.2 =
          [WorldCmd.makeSettingsRemnantOf e.id]) ∧
    ((deleteEntityOrCreateSettingsRemnant st world e).1 = false →
      (deleteEntityOrCreateSettingsRemnant st world e).2.1 = contentDelete st e.id ∧
        e.id ∉ (deleteEntityOrCreateSettingsRemnant st world e).2.1.entities ∧
        (deleteEntityOrCreateSettingsRemnant st world e).2.2 =
          [WorldCmd.deleteWorldEntitiesOf e.id]) := by
  have hshould : shouldMakeSettingsRemnant st world e = true ↔
      e.hasStageDiff = true ∨
        ∃ m, st.circuitConnections.lookup e.id = some m ∧
          ∃ other ∈ m.keys, world other e.firstStage = false := by
    unfold shouldMakeSettingsRemnant
    cases hd : e.hasStageDiff with
    | true => simp
    | false =>
      simp only [Bool.false_eq_true, if_false]
      cases hm : st.circuitConnections.lookup e.id with
      | none => simp
      | some m => simp
  by_cases hs : shouldMakeSettingsRemnant st world e = true
  · refine ⟨?_, ?_, ?_⟩
    · simp only [deleteEntityOrCreateSettingsRemnant, hs, if_true]
      simpa using hshould.mp hs
    · intro _
      simp only [deleteEntityOrCreateSettingsRemnant, hs, if_true]
      exact ⟨trivial, he, trivial⟩
    · intro hf
      rw [deleteEntityOrCreateSettingsRemnant, if_pos hs] at hf
      cases hf
  · rw [Bool.not_eq_true] at hs
    refine ⟨?_, ?_, ?_⟩
    · simp only [deleteEntityOrCreateSettingsRemnant, hs, Bool.false_eq_true, if_false]
      simp only [Bool.false_eq_true, false_iff]
      intro hc
      exact absurd (hshould.mpr hc) (by simp [hs])
    · intro ht
      rw [deleteEntityOrCreateSettingsRemnant, if_neg (by simp [hs])] at ht
      cases ht
    · intro _
      simp only [deleteEntityOrCreateSettingsRemnant, hs, Bool.false_eq_true, if_false]
      exact ⟨trivial, contentDelete_not_mem st e.id he, trivial⟩

/-- A project entity with one stage diff for the C9 witness. -/
def c9Entity : ProjEntity Bool ℕ :=
  { id := 0,
    value := { baseLayer := 1, baseValue := fun _ => some 0,
               layerChanges := [(2, fun _ => some (DiffVal.setTo 1))] } }

/-- A content store holding only entity 0 with no connections. -/
def c9St : AssemblyContent :=
  { entities := {0}, circuitConnections := ∅, cableConnections := ∅,
    extraCableConnectionPoints := ∅ }

/-- Witness for C9: an entity with a stage diff is kept as a settings remnant,
the store untouched. -/
theorem c9_settings_remnant_iff_witness :
    ((deleteEntityOrCreateSettingsRemnant c9St (fun _ _ => true) c9Entity).1 = true ↔
      c9Entity.hasStageDiff = true ∨
        ∃ m, c9St.circuitConnections.lookup c9Entity.id = some m ∧
          ∃ other ∈ m.keys, (fun _ _ => true : ℕ → ℕ → Bool) other c9Entity.firstStage
            = false) ∧
    ((deleteEntityOrCreateSettingsRemnant c9St (fun _ _ => true) c9Entity).1 = true →
      (deleteEntityOrCreateSettingsRemnant c9St (fun _ _ => true) c9Entity).2.1 = c9St ∧
        c9Entity.id ∈
          (deleteEntityOrCreateSettingsRemnant c9St (fun _ _ => true) c9Entity).2.1.entities ∧
        (deleteEntityOrCreateSettingsRemnant c9St (fun _ _ => true) c9Entity).2.2 =
          [WorldCmd.makeSettingsRemnantOf c9Entity.id]) ∧
    ((deleteEntityOrCreateSettingsRemnant c9St (fun _ _ => true) c9Entity).1 = false →
      (deleteEntityOrCreateSettingsRemnant c9St (fun _ _ => true) c9Entity).2.1 =
          contentDelete c9St c9Entity.id ∧
        c9Entity.id ∉
          (deleteEntityOrCreateSettingsRemnant c9St (fun _ _ => true) c9Entity).2.1.entities ∧
        (deleteEntityOrCreateSettingsRemnant c9St (fun _ _ => true) c9Entity).2.2 =
          [WorldCmd.deleteWorldEntitiesOf c9Entity.id]) :=
  c9_settings_remnant_iff c9St (fun _ _ => true) c9Entity (by decide)

end StagedBP
